import Mathlib

/-!
# Verification of the GolfSim ball-physics core

Shallow embedding of the GolfSim repository's physics core
(`src/systems/BallPhysics.ts`, `src/models/TileTypes.ts`, `src/models/Club.ts`,
`src/systems/IsometricMap.ts`, `src/play/AimingSystem.ts`) over exact rational
arithmetic.  JavaScript numbers are modelled as `ℚ`; the transcendental
library calls `Math.cos` / `Math.sin` / `Phaser.Math.DegToRad` are modelled by
an abstract oracle (`Trig`), since the code only ever feeds their results into
further arithmetic.  The square roots computed by the code are only ever used
in comparisons (`Math.sqrt s < c`, `dist < bestDist`); the embedding performs
the equivalent comparison on the squares, and lemmas `sqrt_lt_const_iff`,
`sqrt_le_sqrt_of_le` below record that this is an exact translation.
-/

namespace GolfSim

/-! ## Constants (`src/utils/Constants.ts`, `src/systems/BallPhysics.ts`,
`src/models/Club.ts`) -/

def GRAVITY : ℚ := 400
def MIN_BOUNCE_VZ : ℚ := 15
def TRAJECTORY_STEPS : ℕ := 50
def TRAJECTORY_DT : ℚ := 0.025
def STOP_THRESHOLD : ℚ := 3
def BOUNCE_HORIZONTAL_DAMPING : ℚ := 0.6
def SPIN_DECAY : ℚ := 0.4
def TILE_WIDTH : ℚ := 64
def TILE_HEIGHT : ℚ := 32

/-- `maxRollSteps` literal inside `simulateTrajectory`. -/
def maxRollSteps : ℕ := 200

/-! ## Terrain model (`src/models/TileTypes.ts`) -/

inductive TileType where
  | GRASS
  | FAIRWAY
  | GREEN
  | SAND
  | WATER
  | ROUGH
  | TEE
  deriving DecidableEq, BEq, Repr, Fintype

structure TileProperties where
  friction : ℚ
  canPlaceBall : Bool
  speedMultiplier : ℚ
  bounceFactor : ℚ
  landingSpeedFactor : ℚ
  deriving DecidableEq, Repr

/-- The static terrain table `TILE_PROPERTIES`. -/
def TILE_PROPERTIES : TileType → TileProperties
  | .GRASS   => ⟨0.88, true,  0.8, 0.55, 0.25⟩
  | .FAIRWAY => ⟨0.91, true,  1.0, 0.60, 0.35⟩
  | .GREEN   => ⟨0.94, true,  1.0, 0.65, 0.40⟩
  | .SAND    => ⟨0.75, true,  0.5, 0.0,  0.0⟩
  | .WATER   => ⟨0.0,  false, 0.0, 0.0,  0.0⟩
  | .ROUGH   => ⟨0.82, true,  0.6, 0.40, 0.15⟩
  | .TEE     => ⟨0.91, true,  1.0, 0.60, 0.35⟩

/-! ## Trigonometry oracle

`Math.cos`, `Math.sin` and `Phaser.Math.DegToRad` as uninterpreted functions:
the code only combines their outputs arithmetically, so every theorem holds
for an arbitrary oracle, with the Pythagorean identity taken as an explicit
hypothesis where a claim needs it. -/

structure Trig where
  cos : ℚ → ℚ
  sin : ℚ → ℚ
  degToRad : ℚ → ℚ

/-! ## Isometric map (`src/systems/IsometricMap.ts`) -/

structure IsoMap where
  width : ℤ
  height : ℤ
  /-- `tiles[tileY][tileX]`, total function; only in-bounds entries are read. -/
  tiles : ℤ → ℤ → TileType

def IsoMap.isInBounds (m : IsoMap) (tileX tileY : ℤ) : Bool :=
  decide (0 ≤ tileX) && decide (tileX < m.width) &&
  decide (0 ≤ tileY) && decide (tileY < m.height)

def IsoMap.getTileAt (m : IsoMap) (tileX tileY : ℤ) : TileType :=
  if m.isInBounds tileX tileY then m.tiles tileY tileX else .GRASS

def IsoMap.getOffsetX (m : IsoMap) : ℚ := ((m.height : ℚ) * TILE_WIDTH) / 2

def IsoMap.getOffsetY (_m : IsoMap) : ℚ := 50

def IsoMap.worldToTile (m : IsoMap) (worldX worldY : ℚ) : ℤ × ℤ :=
  let adjustedX := worldX - m.getOffsetX
  let adjustedY := worldY - m.getOffsetY
  (⌊adjustedY / TILE_HEIGHT + adjustedX / TILE_WIDTH⌋,
   ⌊adjustedY / TILE_HEIGHT - adjustedX / TILE_WIDTH⌋)

/-! ## Club model (`src/models/Club.ts`, second revision, the one used by
`AimingSystem`).  The string `id` / `nameKey` fields are presentation-only
and omitted. -/

structure ClubTerrainModifier where
  hitSpeedDifferenceMin : ℚ
  hitSpeedDifferenceMax : ℚ
  hitAccuracy : ℚ
  spinAngle : Option ℚ
  deriving DecidableEq, Repr

structure Club where
  minPower : ℚ
  maxPower : ℚ
  loftDegrees : ℚ
  spinAngle : ℚ
  teeOnly : Bool
  terrainModifiers : TileType → Option ClubTerrainModifier

def driver : Club :=
  ⟨200, 600, 12, 10, true, fun t =>
    match t with
    | .SAND  => some ⟨-0.30, -0.10, 5.0, some (-6)⟩
    | .ROUGH => some ⟨-0.15, -0.05, 2.0, some (-3)⟩
    | _ => none⟩

def wood : Club :=
  ⟨150, 500, 20, 15, false, fun t =>
    match t with
    | .SAND  => some ⟨-0.25, -0.08, 4.0, some (-8)⟩
    | .ROUGH => some ⟨-0.10, -0.03, 1.5, some (-4)⟩
    | _ => none⟩

def iron : Club :=
  ⟨80, 400, 35, 20, false, fun t =>
    match t with
    | .SAND  => some ⟨-0.15, -0.05, 2.0, some (-6)⟩
    | .ROUGH => some ⟨-0.05, -0.01, 0.5, some (-2)⟩
    | _ => none⟩

def sandwedge : Club :=
  ⟨40, 300, 55, 25, false, fun t =>
    match t with
    | .SAND  => some ⟨-0.02, 0.00, 0.5, some 5⟩
    | .ROUGH => some ⟨-0.05, -0.01, 0.5, some (-2)⟩
    | _ => none⟩

def putter : Club :=
  ⟨10, 200, 0, 8, false, fun t =>
    match t with
    | .SAND  => some ⟨-0.20, -0.10, 3.0, some (-4)⟩
    | .ROUGH => some ⟨-0.10, -0.05, 1.5, some (-3)⟩
    | _ => none⟩

def CLUBS : List Club := [driver, wood, iron, sandwedge, putter]

def DEFAULT_CLUB_INDEX : ℕ := 2

/-! ## Ball state (`BallPhysics` mutable fields).  The Phaser sprite is
display-only (`body.enable = false`); its position always mirrors
`(groundX, groundY - z)` and is not modelled separately. -/

structure Ball where
  strokeCount : ℕ
  lastSafeX : ℚ
  lastSafeY : ℚ
  z : ℚ
  vz : ℚ
  groundX : ℚ
  groundY : ℚ
  groundVx : ℚ
  groundVy : ℚ
  isAirborne : Bool
  isRolling : Bool
  spinDirection : ℤ
  spinAngle : ℚ
  deriving DecidableEq, Repr

structure TrajectoryPoint where
  x : ℚ
  y : ℚ
  z : ℚ
  deriving DecidableEq, Repr

def TrajectoryPoint.toTriple (p : TrajectoryPoint) : ℚ × ℚ × ℚ := (p.x, p.y, p.z)

/-! ## BallPhysics operations (`src/systems/BallPhysics.ts`) -/

def isHazard (m : IsoMap) (wx wy : ℚ) : Bool :=
  let tc := m.worldToTile wx wy
  if !(m.isInBounds tc.1 tc.2) then true
  else m.getTileAt tc.1 tc.2 == TileType.WATER

def getTerrainAtWorld (m : IsoMap) (wx wy : ℚ) : TileType :=
  let tc := m.worldToTile wx wy
  m.getTileAt tc.1 tc.2

/-- `createBall`: initial resting state at a world position. -/
def createBall (worldX worldY : ℚ) : Ball :=
  ⟨0, worldX, worldY, 0, 0, worldX, worldY, 0, 0, false, false, 0, 0⟩

/-- `shoot(angle, power, loftDegrees, spinDirection, spinAngle)`.
At rest the sprite position equals the ground position, so
`this.ball.x = this.groundX`. -/
def shoot (T : Trig) (angle power loftDegrees : ℚ) (spinDirection : ℤ)
    (spinAngle : ℚ) (s : Ball) : Ball :=
  let loftRad := T.degToRad loftDegrees
  let horizontalPower := power * T.cos loftRad
  let vz := power * T.sin loftRad
  let s1 : Ball :=
    { s with
      lastSafeX := s.groundX
      lastSafeY := s.groundY
      spinDirection := spinDirection
      spinAngle := spinAngle
      vz := vz
      groundVx := T.cos angle * horizontalPower
      groundVy := T.sin angle * horizontalPower
      z := 0 }
  let s2 : Ball :=
    if vz > MIN_BOUNCE_VZ then
      { s1 with isAirborne := true, isRolling := false }
    else
      { s1 with isAirborne := false, isRolling := true }
  { s2 with strokeCount := s2.strokeCount + 1 }

/-- `handleWaterHazard`: penalty stroke, zero all motion and spin, relocate
to the last recorded safe position. -/
def handleWaterHazard (s : Ball) : Ball :=
  { s with
    strokeCount := s.strokeCount + 1
    groundVx := 0
    groundVy := 0
    z := 0
    vz := 0
    isAirborne := false
    isRolling := false
    spinDirection := 0
    spinAngle := 0
    groundX := s.lastSafeX
    groundY := s.lastSafeY }

/-- `updateAirborne(dt)`. -/
def updateAirborne (m : IsoMap) (T : Trig) (dt : ℚ) (s : Ball) : Ball :=
  let gx := s.groundX + s.groundVx * dt
  let gy := s.groundY + s.groundVy * dt
  let vz := s.vz - GRAVITY * dt
  let z := s.z + vz * dt
  if z ≤ 0 ∧ vz < 0 then
    let tileType := getTerrainAtWorld m gx gy
    let props := TILE_PROPERTIES tileType
    if |vz| > MIN_BOUNCE_VZ ∧ props.bounceFactor > 0 then
      let vz' := -vz * props.bounceFactor
      let dvx := s.groundVx * BOUNCE_HORIZONTAL_DAMPING
      let dvy := s.groundVy * BOUNCE_HORIZONTAL_DAMPING
      if s.spinDirection ≠ 0 ∧ s.spinAngle > 0 then
        let spinRad := T.degToRad (s.spinAngle * (s.spinDirection : ℚ))
        let c := T.cos spinRad
        let si := T.sin spinRad
        let newVx := dvx * c - dvy * si
        let newVy := dvx * si + dvy * c
        { s with groundX := gx, groundY := gy, z := 0, vz := vz',
                 groundVx := newVx, groundVy := newVy,
                 spinAngle := s.spinAngle * SPIN_DECAY }
      else
        { s with groundX := gx, groundY := gy, z := 0, vz := vz',
                 groundVx := dvx, groundVy := dvy }
    else
      let lvx := s.groundVx * props.landingSpeedFactor
      let lvy := s.groundVy * props.landingSpeedFactor
      let sl : Ball :=
        { s with groundX := gx, groundY := gy, z := 0, vz := 0,
                 isAirborne := false, isRolling := true,
                 groundVx := lvx, groundVy := lvy }
      if isHazard m gx gy then handleWaterHazard sl else sl
  else
    { s with groundX := gx, groundY := gy, vz := vz, z := z }

/-- `updateGround(dt)`.  The source computes
`speed = Math.sqrt(vx*vx + vy*vy)` and compares `speed < STOP_THRESHOLD`;
the embedding compares the squares, which is exactly equivalent
(`sqrt_lt_const_iff` below). -/
def updateGround (m : IsoMap) (dt : ℚ) (s : Ball) : Ball :=
  if isHazard m s.groundX s.groundY then handleWaterHazard s
  else
    let speedSq := s.groundVx * s.groundVx + s.groundVy * s.groundVy
    if speedSq < STOP_THRESHOLD ^ 2 then
      { s with groundVx := 0, groundVy := 0, isRolling := false }
    else
      let tileType := getTerrainAtWorld m s.groundX s.groundY
      let props := TILE_PROPERTIES tileType
      let vx := s.groundVx * props.friction
      let vy := s.groundVy * props.friction
      let gx := s.groundX + vx * dt
      let gy := s.groundY + vy * dt
      let sm : Ball :=
        { s with groundVx := vx, groundVy := vy, groundX := gx, groundY := gy }
      if isHazard m gx gy then handleWaterHazard sm
      else { sm with lastSafeX := gx, lastSafeY := gy }

/-- `update(delta)` (shadow drawing is presentation-only and dropped). -/
def update (m : IsoMap) (T : Trig) (delta : ℚ) (s : Ball) : Ball :=
  let dt := delta / 1000
  if s.isAirborne then updateAirborne m T dt s
  else if s.isRolling then updateGround m dt s
  else s

/-- `isStopped()` (the ball always exists in the embedding). -/
def isStopped (s : Ball) : Bool := !s.isAirborne && !s.isRolling

/-- `n` consecutive frames of `update`. -/
def runFrames (m : IsoMap) (T : Trig) (delta : ℚ) : ℕ → Ball → Ball
  | 0, s => s
  | n + 1, s => runFrames m T delta n (update m T delta s)

/-- Positions `(groundX, groundY, z)` occupied by the live ball after each of
`n` frames. -/
def liveTrace (m : IsoMap) (T : Trig) (delta : ℚ) : ℕ → Ball → List (ℚ × ℚ × ℚ)
  | 0, _ => []
  | n + 1, s =>
    let s' := update m T delta s
    (s'.groundX, s'.groundY, s'.z) :: liveTrace m T delta n s'

/-! ## `simulateTrajectory` (`BallPhysics.simulateTrajectory`)

The source is one function with two local loops; the embedding names the
loop-local state and the loop bodies so that theorems can speak about single
iterations.  `FState` / `RState` are exactly the local variables of the
flight and roll loops. -/

structure FState where
  x : ℚ
  y : ℚ
  z : ℚ
  vx : ℚ
  vy : ℚ
  vz : ℚ
  spinAngle : ℚ
  bounces : ℕ
  landed : Bool
  deriving DecidableEq, Repr

structure RState where
  x : ℚ
  y : ℚ
  vx : ℚ
  vy : ℚ
  deriving DecidableEq, Repr

/-- One iteration of the flight loop (body of `for i < TRAJECTORY_STEPS`),
returning the pushed trajectory point and the updated loop state. -/
def simFlightStep (m : IsoMap) (T : Trig) (spinDirection : ℤ) (st : FState) :
    TrajectoryPoint × FState :=
  let x := st.x + st.vx * TRAJECTORY_DT
  let y := st.y + st.vy * TRAJECTORY_DT
  let vz := st.vz - GRAVITY * TRAJECTORY_DT
  let z := st.z + vz * TRAJECTORY_DT
  if z ≤ 0 ∧ vz < 0 then
    let terrainProps := TILE_PROPERTIES (getTerrainAtWorld m x y)
    if |vz| > MIN_BOUNCE_VZ ∧ terrainProps.bounceFactor > 0 ∧ st.bounces < 3 then
      let vz' := -vz * terrainProps.bounceFactor
      let dvx := st.vx * BOUNCE_HORIZONTAL_DAMPING
      let dvy := st.vy * BOUNCE_HORIZONTAL_DAMPING
      if spinDirection ≠ 0 ∧ st.spinAngle > 0 then
        let spinRad := T.degToRad (st.spinAngle * (spinDirection : ℚ))
        let c := T.cos spinRad
        let si := T.sin spinRad
        let newVx := dvx * c - dvy * si
        let newVy := dvx * si + dvy * c
        (⟨x, y, max 0 0⟩,
         ⟨x, y, 0, newVx, newVy, vz', st.spinAngle * SPIN_DECAY, st.bounces + 1, false⟩)
      else
        (⟨x, y, max 0 0⟩,
         ⟨x, y, 0, dvx, dvy, vz', st.spinAngle, st.bounces + 1, false⟩)
    else
      (⟨x, y, max 0 0⟩, ⟨x, y, 0, st.vx, st.vy, vz, st.spinAngle, st.bounces, true⟩)
  else
    (⟨x, y, max 0 z⟩, ⟨x, y, z, st.vx, st.vy, vz, st.spinAngle, st.bounces, false⟩)

/-- The flight loop: `for (i = 0; i < fuel && !landed; i++)`. -/
def simFlightLoop (m : IsoMap) (T : Trig) (spinDirection : ℤ) :
    ℕ → FState → List TrajectoryPoint × FState
  | 0, st => ([], st)
  | n + 1, st =>
    if st.landed then ([], st)
    else
      let ps := simFlightStep m T spinDirection st
      let rest := simFlightLoop m T spinDirection n ps.2
      (ps.1 :: rest.1, rest.2)

/-- One iteration of the rolling loop (`ROLL_DT = TRAJECTORY_DT`). -/
def simRollStep (m : IsoMap) (st : RState) : TrajectoryPoint × RState :=
  let rollProps := TILE_PROPERTIES (getTerrainAtWorld m st.x st.y)
  let vx := st.vx * rollProps.friction
  let vy := st.vy * rollProps.friction
  let x := st.x + vx * TRAJECTORY_DT
  let y := st.y + vy * TRAJECTORY_DT
  (⟨x, y, 0⟩, ⟨x, y, vx, vy⟩)

/-- The rolling loop: `for (i = 0; i < fuel; i++)` with the stop check first.
The source compares `Math.sqrt(vx*vx + vy*vy) < STOP_THRESHOLD`; the
embedding compares the squares (see `sqrt_lt_const_iff`). -/
def simRollLoop (m : IsoMap) : ℕ → RState → List TrajectoryPoint
  | 0, _ => []
  | n + 1, st =>
    if st.vx * st.vx + st.vy * st.vy < STOP_THRESHOLD ^ 2 then []
    else
      let ps := simRollStep m st
      ps.1 :: simRollLoop m n ps.2

/-- Flight phase of `simulateTrajectory`: the flight loop followed by the
post-loop landing-speed scaling, returning the flight samples and the
start state of the rolling loop. -/
def simFlightPhase (m : IsoMap) (T : Trig) (spinDirection : ℤ)
    (startX startY vx vy vz spinAngle : ℚ) : List TrajectoryPoint × RState :=
  let fl := simFlightLoop m T spinDirection TRAJECTORY_STEPS
              ⟨startX, startY, 0, vx, vy, vz, spinAngle, 0, false⟩
  let landingProps := TILE_PROPERTIES (getTerrainAtWorld m fl.2.x fl.2.y)
  (fl.1, ⟨fl.2.x, fl.2.y, fl.2.vx * landingProps.landingSpeedFactor,
          fl.2.vy * landingProps.landingSpeedFactor⟩)

/-- `simulateTrajectory(startX, startY, dirAngle, power, loftDegrees,
spinDirection, spinAngle)`: the pure prediction function. -/
def simulateTrajectory (m : IsoMap) (T : Trig)
    (startX startY dirAngle power loftDegrees : ℚ)
    (spinDirection : ℤ) (spinAngle : ℚ) : List TrajectoryPoint :=
  let loftRad := T.degToRad loftDegrees
  let horizontalPower := power * T.cos loftRad
  let vz := power * T.sin loftRad
  let vx := T.cos dirAngle * horizontalPower
  let vy := T.sin dirAngle * horizontalPower
  let skipFlight := vz ≤ MIN_BOUNCE_VZ
  if skipFlight then
    simRollLoop m maxRollSteps ⟨startX, startY, vx, vy⟩
  else
    let fp := simFlightPhase m T spinDirection startX startY vx vy vz spinAngle
    fp.1 ++ simRollLoop m maxRollSteps fp.2

/-! ## AimingSystem (`src/play/AimingSystem.ts`) -/

def isOnTee (m : IsoMap) (ballX ballY : ℚ) : Bool :=
  let tc := m.worldToTile ballX ballY
  m.getTileAt tc.1 tc.2 == TileType.TEE

/-- `selectClub(index)`: returns the new `clubIndex` together with whether a
`club-restricted` notification was emitted.  The source guard
`index < 0 || index >= CLUBS.length` is the `none` case of `CLUBS[index]?`. -/
def selectClub (m : IsoMap) (ballX ballY : ℚ) (clubIndex : ℕ) (index : ℕ) :
    ℕ × Bool :=
  match CLUBS[index]? with
  | none => (clubIndex, false)
  | some club =>
    if club.teeOnly && !(isOnTee m ballX ballY) then (clubIndex, true)
    else (index, false)

/-- The `i`-th sampled power in `findOptimalPower` (`steps = 10`). -/
def powerCandidate (club : Club) (i : ℕ) : ℚ :=
  club.minPower + (club.maxPower - club.minPower) * ((i : ℚ) / 10)

/-- The effective spin angle `findOptimalPower` passes to the prediction:
`Math.max(0, club.spinAngle + (terrainMod?.spinAngle ?? 0))`. -/
def effectiveSpinAngleFor (club : Club) (tileType : TileType) : ℚ :=
  max 0 (club.spinAngle + (((club.terrainModifiers tileType).bind
    (fun tm => tm.spinAngle)).getD 0))

/-- Squared distance from a candidate's predicted landing point (last
trajectory sample) to the target; `none` when the prediction is empty
(`points.length === 0` in the source).  The source takes
`Math.sqrt` of this before comparing; comparisons of the squares are
equivalent (`sqrt_le_sqrt_of_le`, `sqrt_lt_sqrt_iff_of_nonneg`). -/
def landingDistSq (m : IsoMap) (T : Trig) (spinDirection : ℤ)
    (effectiveSpinAngle : ℚ) (club : Club)
    (ballX ballY angle targetX targetY : ℚ) (power : ℚ) : Option ℚ :=
  match (simulateTrajectory m T ballX ballY angle power club.loftDegrees
      spinDirection effectiveSpinAngle).getLast? with
  | none => none
  | some lastPt =>
    some ((lastPt.x - targetX) ^ 2 + (lastPt.y - targetY) ^ 2)

/-- The candidate loop of `findOptimalPower`: `bestDist` starts at
`Infinity`, modelled as `none`. -/
def findOptimalPowerAux (m : IsoMap) (T : Trig) (spinDirection : ℤ)
    (effectiveSpinAngle : ℚ) (club : Club)
    (ballX ballY angle targetX targetY : ℚ) :
    List ℕ → ℚ → Option ℚ → ℚ
  | [], bestPower, _ => bestPower
  | i :: rest, bestPower, bestDist =>
    let power := powerCandidate club i
    match landingDistSq m T spinDirection effectiveSpinAngle club
        ballX ballY angle targetX targetY power with
    | none =>
      findOptimalPowerAux m T spinDirection effectiveSpinAngle club
        ballX ballY angle targetX targetY rest bestPower bestDist
    | some distSq =>
      match bestDist with
      | none =>
        findOptimalPowerAux m T spinDirection effectiveSpinAngle club
          ballX ballY angle targetX targetY rest power (some distSq)
      | some bd =>
        if distSq < bd then
          findOptimalPowerAux m T spinDirection effectiveSpinAngle club
            ballX ballY angle targetX targetY rest power (some distSq)
        else
          findOptimalPowerAux m T spinDirection effectiveSpinAngle club
            ballX ballY angle targetX targetY rest bestPower bestDist

/-- `findOptimalPower(ballX, ballY, angle, targetX, targetY)`; the club and
spin direction are the surrounding object state, passed explicitly.  The
ground position used for terrain modifiers equals the ball position at
rest. -/
def findOptimalPower (m : IsoMap) (T : Trig) (spinDirection : ℤ) (club : Club)
    (ballX ballY angle targetX targetY : ℚ) : ℚ :=
  let tileType := getTerrainAtWorld m ballX ballY
  let effectiveSpinAngle := effectiveSpinAngleFor club tileType
  findOptimalPowerAux m T spinDirection effectiveSpinAngle club
    ballX ballY angle targetX targetY (List.range 11) club.minPower none

/-! ## Square-root bridging lemmas

The source code computes `Math.sqrt` only to compare the result against a
constant or against another square root.  These lemmas record that the
comparisons on squares performed by the embedding are exactly the comparisons
the source performs on the square roots. -/

lemma sqrt_lt_const_iff (q c : ℚ) (hc : 0 < c) :
    Real.sqrt (q : ℝ) < (c : ℝ) ↔ q < c ^ 2 := by
  rw [Real.sqrt_lt' (show (0 : ℝ) < (c : ℝ) by exact_mod_cast hc)]
  norm_cast

lemma sqrt_lt_sqrt_iff_of_nonneg (a b : ℚ) (ha : 0 ≤ a) :
    Real.sqrt (a : ℝ) < Real.sqrt (b : ℝ) ↔ a < b := by
  rw [Real.sqrt_lt_sqrt_iff (show (0 : ℝ) ≤ (a : ℝ) by exact_mod_cast ha)]
  norm_cast

lemma sqrt_le_sqrt_of_le (a b : ℚ) (h : a ≤ b) :
    Real.sqrt (a : ℝ) ≤ Real.sqrt (b : ℝ) :=
  Real.sqrt_le_sqrt (by exact_mod_cast h)

/-! ## Guarded unfolding lemmas for the prediction loops

Used to evaluate the fuel-bounded loops on concrete inputs one guarded step
at a time. -/

lemma simRollLoop_step (m : IsoMap) (n : ℕ) (st : RState)
    (h : STOP_THRESHOLD ^ 2 ≤ st.vx * st.vx + st.vy * st.vy) :
    simRollLoop m (n + 1) st
      = (simRollStep m st).1 :: simRollLoop m n (simRollStep m st).2 := by
  simp only [simRollLoop]
  rw [if_neg (not_lt.mpr h)]

lemma simRollLoop_stop (m : IsoMap) (n : ℕ) (st : RState)
    (h : st.vx * st.vx + st.vy * st.vy < STOP_THRESHOLD ^ 2) :
    simRollLoop m n st = [] := by
  cases n with
  | zero => rfl
  | succ n => simp only [simRollLoop]; rw [if_pos h]

lemma simulateTrajectory_skip (m : IsoMap) (T : Trig)
    (startX startY angle power loftDegrees : ℚ) (sd : ℤ) (sa : ℚ)
    (h : power * T.sin (T.degToRad loftDegrees) ≤ MIN_BOUNCE_VZ) :
    simulateTrajectory m T startX startY angle power loftDegrees sd sa
      = simRollLoop m maxRollSteps
          ⟨startX, startY,
           T.cos angle * (power * T.cos (T.degToRad loftDegrees)),
           T.sin angle * (power * T.cos (T.degToRad loftDegrees))⟩ := by
  simp only [simulateTrajectory]
  rw [if_pos h]

/-! ## Static facts about the terrain table -/

lemma bounceFactor_nonneg (t : TileType) : 0 ≤ (TILE_PROPERTIES t).bounceFactor := by
  cases t <;> norm_num [TILE_PROPERTIES]

lemma bounceFactor_le_one (t : TileType) : (TILE_PROPERTIES t).bounceFactor ≤ 1 := by
  cases t <;> norm_num [TILE_PROPERTIES]

lemma friction_nonneg (t : TileType) : 0 ≤ (TILE_PROPERTIES t).friction := by
  cases t <;> norm_num [TILE_PROPERTIES]

lemma friction_lt_one (t : TileType) : (TILE_PROPERTIES t).friction < 1 := by
  cases t <;> norm_num [TILE_PROPERTIES]

/-! ## C8: terrain-table invariants -/

/-- C8 counterexample: the claim asserts `rollingFriction ∈ (0,1]` for every
terrain class, but the Water entry has `friction = 0`, which is not in the
half-open interval `(0,1]`. -/
theorem c8_counterexample :
    (TILE_PROPERTIES TileType.WATER).friction = 0 ∧
    ¬ (0 < (TILE_PROPERTIES TileType.WATER).friction ∧
       (TILE_PROPERTIES TileType.WATER).friction ≤ 1) := by
  norm_num [TILE_PROPERTIES]

/-- C8 (amended): in the static terrain table every terrain class other than
Water has `rollingFriction ∈ (0,1]` (Water has `rollingFriction = 0`); every
class has `bounceFactor ∈ [0,1]` and `landingSpeedFactor ∈ [0,1]`; and the
Water entry has `bounceFactor = 0`, `landingSpeedFactor = 0` and
`canPlaceBall = false`. -/
theorem c8_terrain_table (t : TileType) :
    (t ≠ TileType.WATER →
      0 < (TILE_PROPERTIES t).friction ∧ (TILE_PROPERTIES t).friction ≤ 1) ∧
    (TILE_PROPERTIES TileType.WATER).friction = 0 ∧
    (0 ≤ (TILE_PROPERTIES t).bounceFactor ∧ (TILE_PROPERTIES t).bounceFactor ≤ 1) ∧
    (0 ≤ (TILE_PROPERTIES t).landingSpeedFactor ∧
      (TILE_PROPERTIES t).landingSpeedFactor ≤ 1) ∧
    (TILE_PROPERTIES TileType.WATER).bounceFactor = 0 ∧
    (TILE_PROPERTIES TileType.WATER).landingSpeedFactor = 0 ∧
    (TILE_PROPERTIES TileType.WATER).canPlaceBall = false := by
  cases t <;> norm_num [TILE_PROPERTIES]

/-- Witness for `c8_terrain_table` at the Grass entry. -/
theorem c8_terrain_table_witness :
    0 < (TILE_PROPERTIES TileType.GRASS).friction ∧
    (TILE_PROPERTIES TileType.GRASS).friction ≤ 1 :=
  (c8_terrain_table TileType.GRASS).1 (by decide)

/-! ## C9: termination and iteration caps of the prediction -/

lemma simFlightLoop_length_le (m : IsoMap) (T : Trig) (sd : ℤ) (n : ℕ) :
    ∀ st : FState, (simFlightLoop m T sd n st).1.length ≤ n := by
  induction n with
  | zero => intro st; simp [simFlightLoop]
  | succ n ih =>
    intro st
    simp only [simFlightLoop]
    split
    · simp
    · simpa using ih _

lemma simRollLoop_length_le (m : IsoMap) (n : ℕ) :
    ∀ st : RState, (simRollLoop m n st).length ≤ n := by
  induction n with
  | zero => intro st; simp [simRollLoop]
  | succ n ih =>
    intro st
    simp only [simRollLoop]
    split
    · simp
    · simpa using ih _

/-- C9: `simulateTrajectory` is a total function (termination is structural:
both loops run on explicit fuel), its flight loop contributes at most
`TRAJECTORY_STEPS = 50` samples, its rolling loop at most
`maxRollSteps = 200` samples, so the result always holds at most 250
samples — for every map (including friction-0 or friction-1 terrain
everywhere), every trigonometry oracle and every input.  Reaching a cap just
truncates the returned list; no error value exists. -/
theorem c9_prediction_caps (m : IsoMap) (T : Trig)
    (startX startY dirAngle power loftDegrees : ℚ) (sd : ℤ) (sa : ℚ) :
    (∀ st : FState,
      (simFlightLoop m T sd TRAJECTORY_STEPS st).1.length ≤ 50) ∧
    (∀ st : RState, (simRollLoop m maxRollSteps st).length ≤ 200) ∧
    (simulateTrajectory m T startX startY dirAngle power loftDegrees
      sd sa).length ≤ 250 := by
  refine ⟨fun st => simFlightLoop_length_le m T sd TRAJECTORY_STEPS st,
          fun st => simRollLoop_length_le m maxRollSteps st, ?_⟩
  simp only [simulateTrajectory]
  split
  · exact le_trans (simRollLoop_length_le m maxRollSteps _) (by norm_num [maxRollSteps])
  · rw [List.length_append]
    have h1 : (simFlightPhase m T sd startX startY
        (T.cos dirAngle * (power * T.cos (T.degToRad loftDegrees)))
        (T.sin dirAngle * (power * T.cos (T.degToRad loftDegrees)))
        (power * T.sin (T.degToRad loftDegrees)) sa).1.length
        ≤ TRAJECTORY_STEPS := by
      simp only [simFlightPhase]
      exact simFlightLoop_length_le m T sd TRAJECTORY_STEPS _
    have h2 := simRollLoop_length_le m maxRollSteps
    calc _ ≤ TRAJECTORY_STEPS + maxRollSteps := Nat.add_le_add (h1) (h2 _)
    _ = 250 := by norm_num [TRAJECTORY_STEPS, maxRollSteps]

/-! ## C4: skip-flight boundary -/

lemma simRollLoop_z_eq_zero (m : IsoMap) (n : ℕ) :
    ∀ (st : RState) (p : TrajectoryPoint), p ∈ simRollLoop m n st → p.z = 0 := by
  induction n with
  | zero => intro st p hp; simp [simRollLoop] at hp
  | succ n ih =>
    intro st p hp
    simp only [simRollLoop] at hp
    split at hp
    · simp at hp
    · rcases List.mem_cons.mp hp with h | h
      · rw [h]; simp [simRollStep]
      · exact ih _ p h

/-- C4: with `vz0 = power·sin(loft) ≤ MIN_BOUNCE_VZ` the shot skips flight:
the live ball enters Rolling immediately (not Airborne) carrying the full
horizontal velocity components (no landing-speed scaling), and the
prediction likewise runs only its rolling loop from the unscaled launch
velocity, producing only `z = 0` samples (zero bounces); with
`vz0 > MIN_BOUNCE_VZ` the live ball enters Airborne and the prediction runs
its flight loop.  The boundary condition `vz0 ≤ MIN_BOUNCE_VZ` is the same
in `shoot` and in `simulateTrajectory`. -/
theorem c4_skip_flight_boundary (m : IsoMap) (T : Trig)
    (startX startY angle power loftDegrees : ℚ) (sd : ℤ) (sa : ℚ) (s : Ball) :
    (power * T.sin (T.degToRad loftDegrees) ≤ MIN_BOUNCE_VZ →
      (shoot T angle power loftDegrees sd sa s).isRolling = true ∧
      (shoot T angle power loftDegrees sd sa s).isAirborne = false ∧
      (shoot T angle power loftDegrees sd sa s).groundVx
        = T.cos angle * (power * T.cos (T.degToRad loftDegrees)) ∧
      (shoot T angle power loftDegrees sd sa s).groundVy
        = T.sin angle * (power * T.cos (T.degToRad loftDegrees)) ∧
      simulateTrajectory m T startX startY angle power loftDegrees sd sa
        = simRollLoop m maxRollSteps
            ⟨startX, startY,
             T.cos angle * (power * T.cos (T.degToRad loftDegrees)),
             T.sin angle * (power * T.cos (T.degToRad loftDegrees))⟩ ∧
      (∀ p ∈ simulateTrajectory m T startX startY angle power loftDegrees sd sa,
        p.z = 0)) ∧
    (power * T.sin (T.degToRad loftDegrees) > MIN_BOUNCE_VZ →
      (shoot T angle power loftDegrees sd sa s).isAirborne = true ∧
      (shoot T angle power loftDegrees sd sa s).isRolling = false ∧
      simulateTrajectory m T startX startY angle power loftDegrees sd sa
        = (simFlightPhase m T sd startX startY
            (T.cos angle * (power * T.cos (T.degToRad loftDegrees)))
            (T.sin angle * (power * T.cos (T.degToRad loftDegrees)))
            (power * T.sin (T.degToRad loftDegrees)) sa).1
          ++ simRollLoop m maxRollSteps
            (simFlightPhase m T sd startX startY
              (T.cos angle * (power * T.cos (T.degToRad loftDegrees)))
              (T.sin angle * (power * T.cos (T.degToRad loftDegrees)))
              (power * T.sin (T.degToRad loftDegrees)) sa).2) := by
  constructor
  · intro h
    have hnot : ¬ (MIN_BOUNCE_VZ < power * T.sin (T.degToRad loftDegrees)) :=
      not_lt.mpr h
    refine ⟨?_, ?_, ?_, ?_, ?_, ?_⟩
    · simp only [shoot]; rw [if_neg hnot]
    · simp only [shoot]; rw [if_neg hnot]
    · simp only [shoot]; rw [if_neg hnot]
    · simp only [shoot]; rw [if_neg hnot]
    · simp only [simulateTrajectory]; rw [if_pos h]
    · intro p hp
      simp only [simulateTrajectory] at hp
      rw [if_pos h] at hp
      exact simRollLoop_z_eq_zero m maxRollSteps _ p hp
  · intro h
    have hnot : ¬ (power * T.sin (T.degToRad loftDegrees) ≤ MIN_BOUNCE_VZ) :=
      not_le.mpr h
    refine ⟨?_, ?_, ?_⟩
    · simp only [shoot]; rw [if_pos h]
    · simp only [shoot]; rw [if_pos h]
    · simp only [simulateTrajectory]; rw [if_neg hnot]

/-- Witness for `c4_skip_flight_boundary`: constant oracle with
`sin = 0`, `cos = 1` (a loft-0 putt), power 200 — the `vz0 ≤ 15` branch. -/
theorem c4_skip_flight_boundary_witness :
    (200 : ℚ) * (Trig.mk (fun _ => 1) (fun _ => 0) (fun q => q)).sin
        ((Trig.mk (fun _ => 1) (fun _ => 0) (fun q => q)).degToRad 0)
      ≤ MIN_BOUNCE_VZ ∧
    (shoot (Trig.mk (fun _ => 1) (fun _ => 0) (fun q => q)) 0 200 0 0 0
      (createBall 32 66)).isRolling = true := by
  have h : (200 : ℚ) * (Trig.mk (fun _ => 1) (fun _ => 0) (fun q => q)).sin
      ((Trig.mk (fun _ => 1) (fun _ => 0) (fun q => q)).degToRad 0)
      ≤ MIN_BOUNCE_VZ := by
    norm_num [MIN_BOUNCE_VZ]
  exact ⟨h, ((c4_skip_flight_boundary (IsoMap.mk 1 1 fun _ _ => TileType.GRASS)
    (Trig.mk (fun _ => 1) (fun _ => 0) (fun q => q)) 32 66 0 200 0 0 0
    (createBall 32 66)).1 h).1⟩

/-! ## C5: bounce damping -/

/-- C5: at an airborne ground contact (`z ≤ 0`, `vz < 0` after the frame's
integration) with `|vz| > MIN_BOUNCE_VZ` and `bounceFactor > 0`, the bounce
sets the new vertical velocity to `-vz·bounceFactor`, so
`|vz_new| = |vz_old|·bounceFactor ≤ |vz_old|` (the terrain table has
`bounceFactor ∈ [0,1]` for every class); both horizontal components are
multiplied by `BOUNCE_HORIZONTAL_DAMPING = 0.6` (and, when spin is active,
additionally rotated — the 0.6 factor is applied in both cases). -/
theorem c5_bounce_damping (m : IsoMap) (T : Trig) (dt : ℚ) (s : Ball)
    (hz : s.z + (s.vz - GRAVITY * dt) * dt ≤ 0)
    (hvz : s.vz - GRAVITY * dt < 0)
    (hbig : |s.vz - GRAVITY * dt| > MIN_BOUNCE_VZ)
    (hbf : 0 < (TILE_PROPERTIES (getTerrainAtWorld m
      (s.groundX + s.groundVx * dt) (s.groundY + s.groundVy * dt))).bounceFactor) :
    (updateAirborne m T dt s).vz
      = -(s.vz - GRAVITY * dt)
        * (TILE_PROPERTIES (getTerrainAtWorld m
            (s.groundX + s.groundVx * dt)
            (s.groundY + s.groundVy * dt))).bounceFactor ∧
    |(updateAirborne m T dt s).vz|
      = |s.vz - GRAVITY * dt|
        * (TILE_PROPERTIES (getTerrainAtWorld m
            (s.groundX + s.groundVx * dt)
            (s.groundY + s.groundVy * dt))).bounceFactor ∧
    |(updateAirborne m T dt s).vz| ≤ |s.vz - GRAVITY * dt| ∧
    (¬ (s.spinDirection ≠ 0 ∧ s.spinAngle > 0) →
      (updateAirborne m T dt s).groundVx = s.groundVx * BOUNCE_HORIZONTAL_DAMPING ∧
      (updateAirborne m T dt s).groundVy = s.groundVy * BOUNCE_HORIZONTAL_DAMPING) ∧
    ((s.spinDirection ≠ 0 ∧ s.spinAngle > 0) →
      (updateAirborne m T dt s).groundVx
        = (s.groundVx * BOUNCE_HORIZONTAL_DAMPING)
            * T.cos (T.degToRad (s.spinAngle * (s.spinDirection : ℚ)))
          - (s.groundVy * BOUNCE_HORIZONTAL_DAMPING)
            * T.sin (T.degToRad (s.spinAngle * (s.spinDirection : ℚ))) ∧
      (updateAirborne m T dt s).groundVy
        = (s.groundVx * BOUNCE_HORIZONTAL_DAMPING)
            * T.sin (T.degToRad (s.spinAngle * (s.spinDirection : ℚ)))
          + (s.groundVy * BOUNCE_HORIZONTAL_DAMPING)
            * T.cos (T.degToRad (s.spinAngle * (s.spinDirection : ℚ)))) := by
  have hbf0 := bounceFactor_nonneg (getTerrainAtWorld m
    (s.groundX + s.groundVx * dt) (s.groundY + s.groundVy * dt))
  have hbf1 := bounceFactor_le_one (getTerrainAtWorld m
    (s.groundX + s.groundVx * dt) (s.groundY + s.groundVy * dt))
  simp only [updateAirborne]
  rw [if_pos ⟨hz, hvz⟩, if_pos ⟨hbig, hbf⟩]
  refine ⟨?_, ?_, ?_, ?_, ?_⟩
  · split <;> rfl
  · split <;> (dsimp only; rw [abs_mul, abs_neg, abs_of_nonneg hbf0])
  · split <;>
      (dsimp only; rw [abs_mul, abs_neg, abs_of_nonneg hbf0];
       exact mul_le_of_le_one_right (abs_nonneg _) hbf1)
  · intro h; rw [if_neg h]; exact ⟨rfl, rfl⟩
  · intro h; rw [if_pos h]; exact ⟨rfl, rfl⟩

/-! ### Concrete scenarios shared by several witnesses -/

/-- A 1×1 all-Grass map. -/
def grassMap : IsoMap := ⟨1, 1, fun _ _ => TileType.GRASS⟩

/-- Oracle whose cosine/sine are the constant Pythagorean pair `3/5`, `4/5`. -/
def spinTrig : Trig := ⟨fun _ => 3/5, fun _ => 4/5, fun q => q⟩

/-- An airborne ball one frame before a bounce (at `dt = 1/40`):
contact velocity `-20`, spin active. -/
def bounceBall : Ball := ⟨0, 0, 0, 1/2, -10, 32, 66, 100, 50, true, false, 1, 30⟩

/-- The same situation as `bounceBall` expressed as prediction flight-loop
state. -/
def bounceFState : FState := ⟨32, 66, 1/2, 100, 50, -10, 30, 0, false⟩

/-- Witness for `c5_bounce_damping` at the `bounceBall` scenario. -/
theorem c5_bounce_damping_witness :
    (updateAirborne grassMap spinTrig (1/40) bounceBall).vz
      = -(bounceBall.vz - GRAVITY * (1/40))
        * (TILE_PROPERTIES (getTerrainAtWorld grassMap
            (bounceBall.groundX + bounceBall.groundVx * (1/40))
            (bounceBall.groundY + bounceBall.groundVy * (1/40)))).bounceFactor := by
  refine (c5_bounce_damping grassMap spinTrig (1/40) bounceBall ?_ ?_ ?_ ?_).1
  · norm_num [bounceBall, GRAVITY]
  · norm_num [bounceBall, GRAVITY]
  · norm_num [bounceBall, GRAVITY, MIN_BOUNCE_VZ]
  · norm_num [bounceBall, getTerrainAtWorld, grassMap, IsoMap.getTileAt,
      TILE_PROPERTIES]

/-! ## C10: spin rotation preserves horizontal speed -/

/-- C10: when spin is applied at a bounce (`spinDirection ≠ 0`, residual
`spinAngle > 0`), the 2D rotation of the horizontal velocity preserves its
squared magnitude (hence its Euclidean norm) exactly: the value immediately
after the rotation equals the value immediately before it (the
`0.6`-damped components) — both in the live bounce handler
`updateAirborne` and in the prediction's `simFlightStep`.  The Pythagorean
identity for the oracle's cosine/sine at the rotation angle is the one fact
about real trigonometry this needs, taken as a hypothesis. -/
theorem c10_spin_preserves_speed (m : IsoMap) (T : Trig) (dt : ℚ) (s : Ball)
    (st : FState) (sd : ℤ) :
    ((s.z + (s.vz - GRAVITY * dt) * dt ≤ 0 ∧ s.vz - GRAVITY * dt < 0) →
     (|s.vz - GRAVITY * dt| > MIN_BOUNCE_VZ ∧
       0 < (TILE_PROPERTIES (getTerrainAtWorld m
         (s.groundX + s.groundVx * dt) (s.groundY + s.groundVy * dt))).bounceFactor) →
     (s.spinDirection ≠ 0 ∧ s.spinAngle > 0) →
     T.cos (T.degToRad (s.spinAngle * (s.spinDirection : ℚ))) ^ 2
       + T.sin (T.degToRad (s.spinAngle * (s.spinDirection : ℚ))) ^ 2 = 1 →
     (updateAirborne m T dt s).groundVx ^ 2 + (updateAirborne m T dt s).groundVy ^ 2
        = (s.groundVx * BOUNCE_HORIZONTAL_DAMPING) ^ 2
          + (s.groundVy * BOUNCE_HORIZONTAL_DAMPING) ^ 2 ∧
     Real.sqrt (((updateAirborne m T dt s).groundVx ^ 2
         + (updateAirborne m T dt s).groundVy ^ 2 : ℚ) : ℝ)
        = Real.sqrt ((((s.groundVx * BOUNCE_HORIZONTAL_DAMPING) ^ 2
          + (s.groundVy * BOUNCE_HORIZONTAL_DAMPING) ^ 2 : ℚ) : ℝ))) ∧
    ((st.z + (st.vz - GRAVITY * TRAJECTORY_DT) * TRAJECTORY_DT ≤ 0 ∧
        st.vz - GRAVITY * TRAJECTORY_DT < 0) →
     (|st.vz - GRAVITY * TRAJECTORY_DT| > MIN_BOUNCE_VZ ∧
       0 < (TILE_PROPERTIES (getTerrainAtWorld m
         (st.x + st.vx * TRAJECTORY_DT) (st.y + st.vy * TRAJECTORY_DT))).bounceFactor ∧
       st.bounces < 3) →
     (sd ≠ 0 ∧ st.spinAngle > 0) →
     T.cos (T.degToRad (st.spinAngle * (sd : ℚ))) ^ 2
       + T.sin (T.degToRad (st.spinAngle * (sd : ℚ))) ^ 2 = 1 →
     (simFlightStep m T sd st).2.vx ^ 2 + (simFlightStep m T sd st).2.vy ^ 2
        = (st.vx * BOUNCE_HORIZONTAL_DAMPING) ^ 2
          + (st.vy * BOUNCE_HORIZONTAL_DAMPING) ^ 2 ∧
     Real.sqrt (((simFlightStep m T sd st).2.vx ^ 2
         + (simFlightStep m T sd st).2.vy ^ 2 : ℚ) : ℝ)
        = Real.sqrt ((((st.vx * BOUNCE_HORIZONTAL_DAMPING) ^ 2
          + (st.vy * BOUNCE_HORIZONTAL_DAMPING) ^ 2 : ℚ) : ℝ))) := by
  constructor
  · intro h1 h2 h3 hpy
    simp only [updateAirborne]
    rw [if_pos h1, if_pos h2, if_pos h3]
    dsimp only
    have heq : ((s.groundVx * BOUNCE_HORIZONTAL_DAMPING)
          * T.cos (T.degToRad (s.spinAngle * (s.spinDirection : ℚ)))
        - (s.groundVy * BOUNCE_HORIZONTAL_DAMPING)
          * T.sin (T.degToRad (s.spinAngle * (s.spinDirection : ℚ)))) ^ 2
        + ((s.groundVx * BOUNCE_HORIZONTAL_DAMPING)
          * T.sin (T.degToRad (s.spinAngle * (s.spinDirection : ℚ)))
        + (s.groundVy * BOUNCE_HORIZONTAL_DAMPING)
          * T.cos (T.degToRad (s.spinAngle * (s.spinDirection : ℚ)))) ^ 2
        = (s.groundVx * BOUNCE_HORIZONTAL_DAMPING) ^ 2
          + (s.groundVy * BOUNCE_HORIZONTAL_DAMPING) ^ 2 := by
      linear_combination
        ((s.groundVx * BOUNCE_HORIZONTAL_DAMPING) ^ 2
          + (s.groundVy * BOUNCE_HORIZONTAL_DAMPING) ^ 2) * hpy
    exact ⟨heq, congrArg Real.sqrt (by exact_mod_cast heq)⟩
  · intro h1 h2 h3 hpy
    simp only [simFlightStep]
    rw [if_pos h1, if_pos h2, if_pos h3]
    dsimp only
    have heq : ((st.vx * BOUNCE_HORIZONTAL_DAMPING)
          * T.cos (T.degToRad (st.spinAngle * (sd : ℚ)))
        - (st.vy * BOUNCE_HORIZONTAL_DAMPING)
          * T.sin (T.degToRad (st.spinAngle * (sd : ℚ)))) ^ 2
        + ((st.vx * BOUNCE_HORIZONTAL_DAMPING)
          * T.sin (T.degToRad (st.spinAngle * (sd : ℚ)))
        + (st.vy * BOUNCE_HORIZONTAL_DAMPING)
          * T.cos (T.degToRad (st.spinAngle * (sd : ℚ)))) ^ 2
        = (st.vx * BOUNCE_HORIZONTAL_DAMPING) ^ 2
          + (st.vy * BOUNCE_HORIZONTAL_DAMPING) ^ 2 := by
      linear_combination
        ((st.vx * BOUNCE_HORIZONTAL_DAMPING) ^ 2
          + (st.vy * BOUNCE_HORIZONTAL_DAMPING) ^ 2) * hpy
    exact ⟨heq, congrArg Real.sqrt (by exact_mod_cast heq)⟩

/-- Witness for `c10_spin_preserves_speed` at the `bounceBall` /
`bounceFState` scenario with the `3/5`–`4/5` oracle. -/
theorem c10_spin_preserves_speed_witness :
    (updateAirborne grassMap spinTrig (1/40) bounceBall).groundVx ^ 2
      + (updateAirborne grassMap spinTrig (1/40) bounceBall).groundVy ^ 2
      = (bounceBall.groundVx * BOUNCE_HORIZONTAL_DAMPING) ^ 2
        + (bounceBall.groundVy * BOUNCE_HORIZONTAL_DAMPING) ^ 2 ∧
    (simFlightStep grassMap spinTrig 1 bounceFState).2.vx ^ 2
      + (simFlightStep grassMap spinTrig 1 bounceFState).2.vy ^ 2
      = (bounceFState.vx * BOUNCE_HORIZONTAL_DAMPING) ^ 2
        + (bounceFState.vy * BOUNCE_HORIZONTAL_DAMPING) ^ 2 := by
  constructor
  · exact ((c10_spin_preserves_speed grassMap spinTrig (1/40) bounceBall
      bounceFState 1).1
      (by norm_num [bounceBall, GRAVITY])
      (by norm_num [bounceBall, GRAVITY, MIN_BOUNCE_VZ, getTerrainAtWorld,
        grassMap, IsoMap.getTileAt, TILE_PROPERTIES])
      (by norm_num [bounceBall])
      (by norm_num [spinTrig])).1
  · exact ((c10_spin_preserves_speed grassMap spinTrig (1/40) bounceBall
      bounceFState 1).2
      (by norm_num [bounceFState, GRAVITY, TRAJECTORY_DT])
      (by norm_num [bounceFState, GRAVITY, TRAJECTORY_DT, MIN_BOUNCE_VZ,
        getTerrainAtWorld, grassMap, IsoMap.getTileAt, TILE_PROPERTIES])
      (by norm_num [bounceFState])
      (by norm_num [spinTrig])).1

/-! ## C6: rolling friction strictly decreases speed, then stops -/

/-- C6: for a rolling ball (`isRolling`, not airborne) on a non-hazardous
position whose terrain has `friction < 1`: while the squared speed is at
least `STOP_THRESHOLD²` a ground step strictly decreases the speed
(equivalently its square); once the speed is below `STOP_THRESHOLD` the
step zeroes both velocity components exactly and the phase becomes Resting
(`isRolling = false`, `isStopped = true`). -/
theorem c6_rolling_monotone (m : IsoMap) (dt : ℚ) (s : Ball)
    (ha : s.isAirborne = false)
    (hnh : isHazard m s.groundX s.groundY = false)
    (hfr : (TILE_PROPERTIES (getTerrainAtWorld m s.groundX s.groundY)).friction < 1) :
    (STOP_THRESHOLD ^ 2 ≤ s.groundVx * s.groundVx + s.groundVy * s.groundVy →
      (updateGround m dt s).groundVx * (updateGround m dt s).groundVx
          + (updateGround m dt s).groundVy * (updateGround m dt s).groundVy
        < s.groundVx * s.groundVx + s.groundVy * s.groundVy ∧
      Real.sqrt (((updateGround m dt s).groundVx * (updateGround m dt s).groundVx
          + (updateGround m dt s).groundVy * (updateGround m dt s).groundVy : ℚ) : ℝ)
        < Real.sqrt ((s.groundVx * s.groundVx + s.groundVy * s.groundVy : ℚ) : ℝ)) ∧
    (s.groundVx * s.groundVx + s.groundVy * s.groundVy < STOP_THRESHOLD ^ 2 →
      (updateGround m dt s).groundVx = 0 ∧ (updateGround m dt s).groundVy = 0 ∧
      (updateGround m dt s).isRolling = false ∧
      isStopped (updateGround m dt s) = true) := by
  have hf0 := friction_nonneg (getTerrainAtWorld m s.groundX s.groundY)
  have hnh' : ¬ (isHazard m s.groundX s.groundY = true) := by simp [hnh]
  constructor
  · intro hfast
    have hS : 0 < s.groundVx * s.groundVx + s.groundVy * s.groundVy := by
      have : (0:ℚ) < STOP_THRESHOLD ^ 2 := by norm_num [STOP_THRESHOLD]
      linarith
    have hsq : (updateGround m dt s).groundVx * (updateGround m dt s).groundVx
          + (updateGround m dt s).groundVy * (updateGround m dt s).groundVy
        < s.groundVx * s.groundVx + s.groundVy * s.groundVy := by
      simp only [updateGround]
      rw [if_neg hnh', if_neg (not_lt.mpr hfast)]
      split
      · dsimp only [handleWaterHazard]
        simpa using hS
      · dsimp only
        have hf1 : (TILE_PROPERTIES (getTerrainAtWorld m s.groundX s.groundY)).friction ^ 2
            < 1 := by nlinarith
        nlinarith
    refine ⟨hsq, ?_⟩
    rw [sqrt_lt_sqrt_iff_of_nonneg _ _
      (add_nonneg (mul_self_nonneg _) (mul_self_nonneg _))]
    exact hsq
  · intro hslow
    simp only [updateGround]
    rw [if_neg hnh', if_pos hslow]
    exact ⟨rfl, rfl, rfl, by simp [isStopped, ha]⟩

/-- A rolling ball on the Grass map. -/
def rollBall : Ball := ⟨1, 32, 66, 0, 0, 32, 66, 100, 50, false, true, 0, 0⟩

/-- Witness for `c6_rolling_monotone`: the fast branch at `rollBall`. -/
theorem c6_rolling_monotone_witness :
    (updateGround grassMap (1/40) rollBall).groundVx
          * (updateGround grassMap (1/40) rollBall).groundVx
        + (updateGround grassMap (1/40) rollBall).groundVy
          * (updateGround grassMap (1/40) rollBall).groundVy
      < rollBall.groundVx * rollBall.groundVx
        + rollBall.groundVy * rollBall.groundVy := by
  refine ((c6_rolling_monotone grassMap (1/40) rollBall rfl ?_ ?_).1 ?_).1
  · norm_num [isHazard, grassMap, IsoMap.worldToTile, IsoMap.getOffsetX,
      IsoMap.getOffsetY, IsoMap.isInBounds, IsoMap.getTileAt, TILE_WIDTH,
      TILE_HEIGHT, rollBall]
    rfl
  · norm_num [getTerrainAtWorld, grassMap, IsoMap.getTileAt, TILE_PROPERTIES]
  · norm_num [rollBall, STOP_THRESHOLD]

/-! ## C7: tee-only club selection -/

/-- C7: selecting a `teeOnly` club while the ball does not rest on a Tee
tile is rejected: the club index is unchanged and the `club-restricted`
notification is emitted; the same selection with the ball on a Tee tile
succeeds (index updated, no notification). -/
theorem c7_tee_only_selection (m : IsoMap) (ballX ballY : ℚ)
    (clubIndex index : ℕ) (club : Club)
    (hc : CLUBS[index]? = some club) (ht : club.teeOnly = true) :
    (isOnTee m ballX ballY = false →
      selectClub m ballX ballY clubIndex index = (clubIndex, true)) ∧
    (isOnTee m ballX ballY = true →
      selectClub m ballX ballY clubIndex index = (index, false)) := by
  constructor <;> intro h <;> simp [selectClub, hc, ht, h]

/-- A 1×1 all-Tee map. -/
def teeMap : IsoMap := ⟨1, 1, fun _ _ => TileType.TEE⟩

/-- Witness for `c7_tee_only_selection`: selecting the driver (club 0,
`teeOnly`) while the ball rests on a Tee tile succeeds. -/
theorem c7_tee_only_selection_witness :
    isOnTee teeMap 32 66 = true ∧
    selectClub teeMap 32 66 DEFAULT_CLUB_INDEX 0 = (0, false) := by
  have htee : isOnTee teeMap 32 66 = true := by
    norm_num [isOnTee, teeMap, IsoMap.worldToTile, IsoMap.getOffsetX,
      IsoMap.getOffsetY, IsoMap.isInBounds, IsoMap.getTileAt, TILE_WIDTH,
      TILE_HEIGHT]
    rfl
  exact ⟨htee, (c7_tee_only_selection teeMap 32 66 DEFAULT_CLUB_INDEX 0
    driver rfl rfl).2 htee⟩

/-! ## C3: the power-from-target search -/

section C3Lemmas

variable (m : IsoMap) (T : Trig) (sd : ℤ) (esa : ℚ) (club : Club)
variable (ballX ballY angle targetX targetY : ℚ)

/-- The search loop returns either the running best power or one of the
candidates it examined. -/
lemma findOptimalPowerAux_mem (l : List ℕ) : ∀ (bp : ℚ) (bd : Option ℚ),
    findOptimalPowerAux m T sd esa club ballX ballY angle targetX targetY
      l bp bd = bp ∨
    ∃ i ∈ l, findOptimalPowerAux m T sd esa club ballX ballY angle targetX
      targetY l bp bd = powerCandidate club i := by
  induction l with
  | nil => intro bp bd; exact Or.inl rfl
  | cons i rest ih =>
    intro bp bd
    simp only [findOptimalPowerAux]
    cases hDi : landingDistSq m T sd esa club ballX ballY angle targetX targetY
        (powerCandidate club i) with
    | none =>
      rcases ih bp bd with h | ⟨j, hj, h⟩
      · exact Or.inl h
      · exact Or.inr ⟨j, List.mem_cons_of_mem _ hj, h⟩
    | some di =>
      cases bd with
      | none =>
        rcases ih (powerCandidate club i) (some di) with h | ⟨j, hj, h⟩
        · exact Or.inr ⟨i, List.mem_cons_self _ _, h⟩
        · exact Or.inr ⟨j, List.mem_cons_of_mem _ hj, h⟩
      | some bdv =>
        dsimp only
        by_cases hlt : di < bdv
        · rw [if_pos hlt]
          rcases ih (powerCandidate club i) (some di) with h | ⟨j, hj, h⟩
          · exact Or.inr ⟨i, List.mem_cons_self _ _, h⟩
          · exact Or.inr ⟨j, List.mem_cons_of_mem _ hj, h⟩
        · rw [if_neg hlt]
          rcases ih bp (some bdv) with h | ⟨j, hj, h⟩
          · exact Or.inl h
          · exact Or.inr ⟨j, List.mem_cons_of_mem _ hj, h⟩

/-- Loop invariant: if the running best distance is the distance of the
running best power, the final power's landing distance is no larger than the
running best and than every examined candidate's. -/
lemma findOptimalPowerAux_spec (l : List ℕ) : ∀ (bp : ℚ) (bd : Option ℚ),
    (∀ d, bd = some d →
      landingDistSq m T sd esa club ballX ballY angle targetX targetY bp
        = some d) →
    (∀ d, bd = some d →
      ∃ dr, landingDistSq m T sd esa club ballX ballY angle targetX targetY
          (findOptimalPowerAux m T sd esa club ballX ballY angle targetX
            targetY l bp bd) = some dr ∧ dr ≤ d) ∧
    (∀ i ∈ l, ∀ di,
      landingDistSq m T sd esa club ballX ballY angle targetX targetY
        (powerCandidate club i) = some di →
      ∃ dr, landingDistSq m T sd esa club ballX ballY angle targetX targetY
          (findOptimalPowerAux m T sd esa club ballX ballY angle targetX
            targetY l bp bd) = some dr ∧ dr ≤ di) := by
  induction l with
  | nil =>
    intro bp bd hinv
    refine ⟨fun d hd => ⟨d, hinv d hd, le_refl d⟩, ?_⟩
    intro i hi
    exact absurd hi (List.not_mem_nil i)
  | cons i rest ih =>
    intro bp bd hinv
    simp only [findOptimalPowerAux]
    cases hDi : landingDistSq m T sd esa club ballX ballY angle targetX targetY
        (powerCandidate club i) with
    | none =>
      obtain ⟨ha, hb⟩ := ih bp bd hinv
      refine ⟨ha, ?_⟩
      intro j hj dj hDj
      rcases List.mem_cons.mp hj with rfl | hj'
      · rw [hDi] at hDj; exact absurd hDj (by simp)
      · exact hb j hj' dj hDj
    | some di =>
      cases bd with
      | none =>
        obtain ⟨ha, hb⟩ := ih (powerCandidate club i) (some di)
          (fun d hd => by
            rw [hDi]
            exact congrArg some (Option.some.inj hd))
        refine ⟨fun d hd => by simp at hd, ?_⟩
        intro j hj dj hDj
        rcases List.mem_cons.mp hj with rfl | hj'
        · rw [hDi] at hDj
          obtain ⟨dr, hdr, hle⟩ := ha di rfl
          exact ⟨dr, hdr, hle.trans (le_of_eq (Option.some.inj hDj))⟩
        · exact hb j hj' dj hDj
      | some bdv =>
        dsimp only
        by_cases hlt : di < bdv
        · rw [if_pos hlt]
          obtain ⟨ha, hb⟩ := ih (powerCandidate club i) (some di)
            (fun d hd => by
              rw [hDi]
              exact congrArg some (Option.some.inj hd))
          refine ⟨?_, ?_⟩
          · intro d hd
            obtain ⟨dr, hdr, hle⟩ := ha di rfl
            exact ⟨dr, hdr, hle.trans ((le_of_lt hlt).trans
              (le_of_eq (Option.some.inj hd)))⟩
          · intro j hj dj hDj
            rcases List.mem_cons.mp hj with rfl | hj'
            · rw [hDi] at hDj
              obtain ⟨dr, hdr, hle⟩ := ha di rfl
              exact ⟨dr, hdr, hle.trans (le_of_eq (Option.some.inj hDj))⟩
            · exact hb j hj' dj hDj
        · rw [if_neg hlt]
          obtain ⟨ha, hb⟩ := ih bp (some bdv) hinv
          refine ⟨ha, ?_⟩
          intro j hj dj hDj
          rcases List.mem_cons.mp hj with rfl | hj'
          · rw [hDi] at hDj
            obtain ⟨dr, hdr, hle⟩ := ha bdv rfl
            exact ⟨dr, hdr, hle.trans ((not_lt.mp hlt).trans
              (le_of_eq (Option.some.inj hDj)))⟩
          · exact hb j hj' dj hDj

end C3Lemmas

lemma powerCandidate_zero (club : Club) :
    powerCandidate club 0 = club.minPower := by
  simp [powerCandidate]

lemma powerCandidate_ten (club : Club) :
    powerCandidate club 10 = club.maxPower := by
  norm_num [powerCandidate]

/-- C3: `findOptimalPower` samples exactly the 11 evenly spaced powers
`minPower + (maxPower − minPower)·i/10` (`i = 0..10`, spanning
`[minPower, maxPower]`), invokes the pure prediction for each, and — when
every candidate's prediction is non-empty — returns one of the sampled
powers whose predicted landing point (last trajectory sample) is at
Euclidean distance from the target no larger than that of every sampled
candidate (squared distances, and hence their square roots, compared). -/
theorem c3_power_search (m : IsoMap) (T : Trig) (sd : ℤ) (club : Club)
    (ballX ballY angle targetX targetY : ℚ)
    (hne : ∀ i, i < 11 →
      (landingDistSq m T sd
        (effectiveSpinAngleFor club (getTerrainAtWorld m ballX ballY)) club
        ballX ballY angle targetX targetY (powerCandidate club i)).isSome
          = true) :
    (∃ j, j < 11 ∧
      findOptimalPower m T sd club ballX ballY angle targetX targetY
        = powerCandidate club j) ∧
    powerCandidate club 0 = club.minPower ∧
    powerCandidate club 10 = club.maxPower ∧
    (∀ i : ℕ, powerCandidate club (i + 1) - powerCandidate club i
        = (club.maxPower - club.minPower) / 10) ∧
    (∃ dr,
      landingDistSq m T sd
        (effectiveSpinAngleFor club (getTerrainAtWorld m ballX ballY)) club
        ballX ballY angle targetX targetY
        (findOptimalPower m T sd club ballX ballY angle targetX targetY)
        = some dr ∧
      ∀ i, i < 11 → ∀ di,
        landingDistSq m T sd
          (effectiveSpinAngleFor club (getTerrainAtWorld m ballX ballY)) club
          ballX ballY angle targetX targetY (powerCandidate club i)
          = some di →
        dr ≤ di ∧ Real.sqrt (dr : ℝ) ≤ Real.sqrt (di : ℝ)) := by
  have hfop : findOptimalPower m T sd club ballX ballY angle targetX targetY
      = findOptimalPowerAux m T sd
          (effectiveSpinAngleFor club (getTerrainAtWorld m ballX ballY)) club
          ballX ballY angle targetX targetY (List.range 11) club.minPower
          none := rfl
  refine ⟨?_, powerCandidate_zero club, powerCandidate_ten club, ?_, ?_⟩
  · rcases findOptimalPowerAux_mem m T sd
        (effectiveSpinAngleFor club (getTerrainAtWorld m ballX ballY)) club
        ballX ballY angle targetX targetY (List.range 11) club.minPower none
      with h | ⟨j, hj, h⟩
    · exact ⟨0, by norm_num,
        by rw [hfop, h, powerCandidate_zero club]⟩
    · exact ⟨j, List.mem_range.mp hj, by rw [hfop, h]⟩
  · intro i
    push_cast [powerCandidate]
    ring
  · obtain ⟨-, hb⟩ := findOptimalPowerAux_spec m T sd
      (effectiveSpinAngleFor club (getTerrainAtWorld m ballX ballY)) club
      ballX ballY angle targetX targetY (List.range 11) club.minPower none
      (fun d hd => by simp at hd)
    have h0 := hne 0 (by norm_num)
    obtain ⟨d0, hd0⟩ := Option.isSome_iff_exists.mp h0
    obtain ⟨dr, hdr, -⟩ := hb 0 (List.mem_range.mpr (by norm_num)) d0 hd0
    refine ⟨dr, by rw [hfop]; exact hdr, ?_⟩
    intro i hi di hdi
    obtain ⟨dr', hdr', hle'⟩ := hb i (List.mem_range.mpr hi) di hdi
    have : dr' = dr := by rw [hdr] at hdr'; exact (Option.some.inj hdr').symm
    rw [this] at hle'
    exact ⟨hle', sqrt_le_sqrt_of_le dr di hle'⟩

/-- Oracle with `cos = 1`, `sin = 0`: a flat putt along the x axis. -/
def flatTrig : Trig := ⟨fun _ => 1, fun _ => 0, fun q => q⟩

/-- A small test club so the witness search rolls only a few steps. -/
def testClub : Club := ⟨4, 8, 0, 0, false, fun _ => none⟩

set_option maxHeartbeats 1000000 in
/-- Witness for `c3_power_search` on the Grass map with the flat oracle:
each of the 11 candidates is a pure x-axis putt whose prediction is
non-empty. -/
theorem c3_power_search_witness :
    ∃ j, j < 11 ∧
      findOptimalPower grassMap flatTrig 0 testClub 32 66 0 40 66
        = powerCandidate testClub j := by
  refine (c3_power_search grassMap flatTrig 0 testClub 32 66 0 40 66 ?_).1
  intro i hi
  interval_cases i <;>
    norm_num [landingDistSq, simulateTrajectory_skip, simRollLoop_step,
      simRollLoop_stop, simRollStep, powerCandidate, testClub,
      effectiveSpinAngleFor, getTerrainAtWorld, grassMap, flatTrig,
      IsoMap.getTileAt, MIN_BOUNCE_VZ, STOP_THRESHOLD,
      TRAJECTORY_DT, maxRollSteps, TILE_PROPERTIES]

/-! ## C1: hazard handling and the safe position -/

/-- C1 counterexample: after a putt from `(32, 66)`, the ball completes one
safe rolling frame (reaching `x = 248/5`, recorded as the new safe
position) and rolls off the map on the next frame.  The hazard reset puts
it at `248/5 ≠ 32`: NOT at the position it occupied immediately before the
most recent shot was struck, refuting the claim's reset target.  (Stroke
count 2 = 1 shot + exactly 1 penalty; velocity and phase are cleared, so a
hazard event did occur.) -/
theorem c1_counterexample :
    (runFrames grassMap flatTrig 100 2
        (shoot flatTrig 0 200 0 0 0 (createBall 32 66))).strokeCount = 2 ∧
    (runFrames grassMap flatTrig 100 2
        (shoot flatTrig 0 200 0 0 0 (createBall 32 66))).groundVx = 0 ∧
    (runFrames grassMap flatTrig 100 2
        (shoot flatTrig 0 200 0 0 0 (createBall 32 66))).groundVy = 0 ∧
    (runFrames grassMap flatTrig 100 2
        (shoot flatTrig 0 200 0 0 0 (createBall 32 66))).isRolling = false ∧
    (runFrames grassMap flatTrig 100 2
        (shoot flatTrig 0 200 0 0 0 (createBall 32 66))).isAirborne = false ∧
    (runFrames grassMap flatTrig 100 2
        (shoot flatTrig 0 200 0 0 0 (createBall 32 66))).groundX = 248/5 ∧
    ((248/5 : ℚ) ≠ (createBall 32 66).groundX) := by
  norm_num [runFrames, update, updateGround, shoot, createBall,
    handleWaterHazard, isHazard, getTerrainAtWorld, grassMap, flatTrig,
    IsoMap.worldToTile, IsoMap.getOffsetX, IsoMap.getOffsetY,
    IsoMap.isInBounds, IsoMap.getTileAt, TILE_WIDTH, TILE_HEIGHT,
    TILE_PROPERTIES, GRAVITY, MIN_BOUNCE_VZ, STOP_THRESHOLD,
    (show (TileType.GRASS == TileType.WATER) = false from rfl)]

/-- C1 (amended): every hazard event increments the stroke count by exactly
1, zeroes all velocity and spin state, and resets the ball to the last
recorded safe position `lastSafePosition` — which `shoot` initialises to
the pre-shot position but every completed non-hazard rolling frame advances
to the ball's current position.  So the reset target is the pre-shot
position only until the first safe rolling frame; afterwards it is the most
recent safely reached rolling position.  The three hazard events are:
a rolling frame starting on a hazard, a rolling frame moving onto a hazard
(reset to the pre-step safe position), and a flight landing on a hazard. -/
theorem c1_hazard_reset (m : IsoMap) (T : Trig) (dt : ℚ) (s : Ball)
    (angle power loftDegrees : ℚ) (sd : ℤ) (sa : ℚ) :
    (isHazard m s.groundX s.groundY = true →
      updateGround m dt s = handleWaterHazard s ∧
      (updateGround m dt s).strokeCount = s.strokeCount + 1 ∧
      (updateGround m dt s).groundVx = 0 ∧
      (updateGround m dt s).groundVy = 0 ∧
      (updateGround m dt s).vz = 0 ∧ (updateGround m dt s).z = 0 ∧
      (updateGround m dt s).spinDirection = 0 ∧
      (updateGround m dt s).spinAngle = 0 ∧
      (updateGround m dt s).groundX = s.lastSafeX ∧
      (updateGround m dt s).groundY = s.lastSafeY) ∧
    (isHazard m s.groundX s.groundY = false →
     STOP_THRESHOLD ^ 2 ≤ s.groundVx * s.groundVx + s.groundVy * s.groundVy →
     isHazard m
        (s.groundX + s.groundVx
          * (TILE_PROPERTIES (getTerrainAtWorld m s.groundX s.groundY)).friction
          * dt)
        (s.groundY + s.groundVy
          * (TILE_PROPERTIES (getTerrainAtWorld m s.groundX s.groundY)).friction
          * dt) = true →
      (updateGround m dt s).strokeCount = s.strokeCount + 1 ∧
      (updateGround m dt s).groundVx = 0 ∧
      (updateGround m dt s).groundVy = 0 ∧
      (updateGround m dt s).spinDirection = 0 ∧
      (updateGround m dt s).spinAngle = 0 ∧
      (updateGround m dt s).groundX = s.lastSafeX ∧
      (updateGround m dt s).groundY = s.lastSafeY) ∧
    (s.z + (s.vz - GRAVITY * dt) * dt ≤ 0 →
     s.vz - GRAVITY * dt < 0 →
     ¬ (|s.vz - GRAVITY * dt| > MIN_BOUNCE_VZ ∧
        0 < (TILE_PROPERTIES (getTerrainAtWorld m (s.groundX + s.groundVx * dt)
          (s.groundY + s.groundVy * dt))).bounceFactor) →
     isHazard m (s.groundX + s.groundVx * dt) (s.groundY + s.groundVy * dt)
        = true →
      (updateAirborne m T dt s).strokeCount = s.strokeCount + 1 ∧
      (updateAirborne m T dt s).groundVx = 0 ∧
      (updateAirborne m T dt s).groundVy = 0 ∧
      (updateAirborne m T dt s).vz = 0 ∧ (updateAirborne m T dt s).z = 0 ∧
      (updateAirborne m T dt s).spinDirection = 0 ∧
      (updateAirborne m T dt s).spinAngle = 0 ∧
      (updateAirborne m T dt s).groundX = s.lastSafeX ∧
      (updateAirborne m T dt s).groundY = s.lastSafeY) ∧
    ((shoot T angle power loftDegrees sd sa s).lastSafeX = s.groundX ∧
     (shoot T angle power loftDegrees sd sa s).lastSafeY = s.groundY) ∧
    (isHazard m s.groundX s.groundY = false →
     STOP_THRESHOLD ^ 2 ≤ s.groundVx * s.groundVx + s.groundVy * s.groundVy →
     isHazard m
        (s.groundX + s.groundVx
          * (TILE_PROPERTIES (getTerrainAtWorld m s.groundX s.groundY)).friction
          * dt)
        (s.groundY + s.groundVy
          * (TILE_PROPERTIES (getTerrainAtWorld m s.groundX s.groundY)).friction
          * dt) = false →
      (updateGround m dt s).lastSafeX
        = s.groundX + s.groundVx
            * (TILE_PROPERTIES (getTerrainAtWorld m s.groundX s.groundY)).friction
            * dt ∧
      (updateGround m dt s).lastSafeY
        = s.groundY + s.groundVy
            * (TILE_PROPERTIES (getTerrainAtWorld m s.groundX s.groundY)).friction
            * dt ∧
      (updateGround m dt s).groundX = (updateGround m dt s).lastSafeX ∧
      (updateGround m dt s).groundY = (updateGround m dt s).lastSafeY) := by
  refine ⟨?_, ?_, ?_, ?_, ?_⟩
  · intro h
    simp only [updateGround]
    rw [if_pos h]
    exact ⟨rfl, rfl, rfl, rfl, rfl, rfl, rfl, rfl, rfl, rfl⟩
  · intro h0 hfast h1
    simp only [updateGround]
    rw [if_neg (by simp [h0]), if_neg (not_lt.mpr hfast), if_pos h1]
    exact ⟨rfl, rfl, rfl, rfl, rfl, rfl, rfl⟩
  · intro h1 h2 h3 h4
    simp only [updateAirborne]
    rw [if_pos ⟨h1, h2⟩, if_neg h3, if_pos h4]
    exact ⟨rfl, rfl, rfl, rfl, rfl, rfl, rfl, rfl, rfl⟩
  · simp only [shoot]
    split <;> exact ⟨rfl, rfl⟩
  · intro h0 hfast h1
    simp only [updateGround]
    rw [if_neg (by simp [h0]), if_neg (not_lt.mpr hfast), if_neg (by simp [h1])]
    exact ⟨rfl, rfl, rfl, rfl⟩

/-- A rolling ball already sitting on a hazardous (out-of-bounds) position
of the 1×1 Grass map. -/
def hazBall : Ball := ⟨1, 32, 66, 0, 0, 200, 66, 50, 0, false, true, 1, 5⟩

/-- Witness for `c1_hazard_reset`: the frame starting on a hazard. -/
theorem c1_hazard_reset_witness :
    updateGround grassMap (1/40) hazBall = handleWaterHazard hazBall ∧
    (updateGround grassMap (1/40) hazBall).strokeCount = 2 ∧
    (updateGround grassMap (1/40) hazBall).groundX = hazBall.lastSafeX := by
  have h : isHazard grassMap hazBall.groundX hazBall.groundY = true := by
    norm_num [isHazard, grassMap, hazBall, IsoMap.worldToTile,
      IsoMap.getOffsetX, IsoMap.getOffsetY, IsoMap.isInBounds,
      IsoMap.getTileAt, TILE_WIDTH, TILE_HEIGHT]
  obtain ⟨heq, hstroke, -, -, -, -, -, -, hx, -⟩ :=
    (c1_hazard_reset grassMap flatTrig (1/40) hazBall 0 0 0 0 0).1 h
  exact ⟨heq, hstroke, hx⟩

/-! ## C2: the prediction against the live integrator

`FState.toBall` / `RState.toBall` read a prediction loop state as the live
ball state it claims to describe; `simFlightOk` / `simRollOk` /
`simTrajOk` decide, along the prediction's own run, whether one of the two
ways the prediction is allowed to diverge from the live integrator occurs:
a landing or roll position that is a hazard (the live integrator resets,
the prediction ignores hazards), or a contact that the live integrator
would bounce but the prediction caps (`bounces < 3`), or a flight that
outlives the 50-step cap. -/

def FState.toBall (fs : FState) (sd : ℤ) (strokes : ℕ) (lsX lsY : ℚ) : Ball :=
  ⟨strokes, lsX, lsY, fs.z, fs.vz, fs.x, fs.y, fs.vx, fs.vy, true, false, sd,
   fs.spinAngle⟩

def RState.toBall (rs : RState) (sd : ℤ) (sa vzq : ℚ) (strokes : ℕ)
    (lsX lsY : ℚ) : Ball :=
  ⟨strokes, lsX, lsY, 0, vzq, rs.x, rs.y, rs.vx, rs.vy, false, true, sd, sa⟩

/-- Checks along the flight loop that no divergence from the live
integrator occurs: every contact the live ball would bounce happens with
`bounces < 3`, the landing position is not a hazard, and the flight lands
before the fuel runs out. -/
def simFlightOk (m : IsoMap) (T : Trig) (sd : ℤ) : ℕ → FState → Bool
  | 0, st => st.landed
  | n + 1, st =>
    if st.landed then true
    else
      let x := st.x + st.vx * TRAJECTORY_DT
      let y := st.y + st.vy * TRAJECTORY_DT
      let vz := st.vz - GRAVITY * TRAJECTORY_DT
      let z := st.z + vz * TRAJECTORY_DT
      if z ≤ 0 ∧ vz < 0 then
        if |vz| > MIN_BOUNCE_VZ ∧
            (TILE_PROPERTIES (getTerrainAtWorld m x y)).bounceFactor > 0 then
          if st.bounces < 3 then
            simFlightOk m T sd n (simFlightStep m T sd st).2
          else false
        else
          !(isHazard m x y) && simFlightOk m T sd n (simFlightStep m T sd st).2
      else simFlightOk m T sd n (simFlightStep m T sd st).2

/-- Checks along the rolling loop that no rolled-through position (before
or after each step) is a hazard. -/
def simRollOk (m : IsoMap) : ℕ → RState → Bool
  | 0, _ => true
  | n + 1, st =>
    if st.vx * st.vx + st.vy * st.vy < STOP_THRESHOLD ^ 2 then true
    else
      !(isHazard m st.x st.y) &&
      !(isHazard m (simRollStep m st).2.x (simRollStep m st).2.y) &&
      simRollOk m n (simRollStep m st).2

/-- The two checks combined along the run of `simulateTrajectory`. -/
def simTrajOk (m : IsoMap) (T : Trig)
    (startX startY dirAngle power loftDegrees : ℚ) (sd : ℤ) (sa : ℚ) : Bool :=
  let vz := power * T.sin (T.degToRad loftDegrees)
  let vx := T.cos dirAngle * (power * T.cos (T.degToRad loftDegrees))
  let vy := T.sin dirAngle * (power * T.cos (T.degToRad loftDegrees))
  if vz ≤ MIN_BOUNCE_VZ then
    simRollOk m maxRollSteps ⟨startX, startY, vx, vy⟩
  else
    simFlightOk m T sd TRAJECTORY_STEPS
      ⟨startX, startY, 0, vx, vy, vz, sa, 0, false⟩ &&
    simRollOk m maxRollSteps
      (simFlightPhase m T sd startX startY vx vy vz sa).2

lemma update_airborne_eq (m : IsoMap) (T : Trig) (delta : ℚ) (s : Ball)
    (h : s.isAirborne = true) :
    update m T delta s = updateAirborne m T (delta / 1000) s := by
  simp only [update]
  rw [if_pos h]

lemma update_rolling_eq (m : IsoMap) (T : Trig) (delta : ℚ) (s : Ball)
    (h1 : s.isAirborne = false) (h2 : s.isRolling = true) :
    update m T delta s = updateGround m (delta / 1000) s := by
  simp only [update]
  rw [if_neg (by simp [h1]), if_pos h2]

lemma simFlightLoop_landed (m : IsoMap) (T : Trig) (sd : ℤ) (n : ℕ)
    (st : FState) (h : st.landed = true) :
    simFlightLoop m T sd n st = ([], st) := by
  cases n with
  | zero => rfl
  | succ n => simp only [simFlightLoop]; rw [if_pos h]

lemma liveTrace_append (m : IsoMap) (T : Trig) (delta : ℚ) :
    ∀ (n1 n2 : ℕ) (s : Ball),
      liveTrace m T delta (n1 + n2) s
        = liveTrace m T delta n1 s
          ++ liveTrace m T delta n2 (runFrames m T delta n1 s) := by
  intro n1
  induction n1 with
  | zero => intro n2 s; simp [liveTrace, runFrames]
  | succ n1 ih =>
    intro n2 s
    rw [Nat.succ_add]
    simp only [liveTrace, runFrames, List.cons_append]
    rw [ih n2 (update m T delta s)]

/-- Flight-loop correspondence: along a flight run that `simFlightOk`
accepts, every prediction sample is the live ball's position at the
corresponding frame, and the live state after the flight samples is the
rolling state the prediction continues from (landing factor applied at the
landing terrain). -/
lemma simFlightLoop_corr (m : IsoMap) (T : Trig) (sd : ℤ) (delta : ℚ)
    (hdt : delta / 1000 = TRAJECTORY_DT) :
    ∀ (n : ℕ) (fs : FState) (strokes : ℕ) (lsX lsY : ℚ),
      fs.landed = false → 0 ≤ fs.z →
      simFlightOk m T sd n fs = true →
      (simFlightLoop m T sd n fs).2.landed = true ∧
      (simFlightLoop m T sd n fs).1.map TrajectoryPoint.toTriple
        = liveTrace m T delta (simFlightLoop m T sd n fs).1.length
            (fs.toBall sd strokes lsX lsY) ∧
      runFrames m T delta (simFlightLoop m T sd n fs).1.length
          (fs.toBall sd strokes lsX lsY)
        = RState.toBall
            ⟨(simFlightLoop m T sd n fs).2.x,
             (simFlightLoop m T sd n fs).2.y,
             (simFlightLoop m T sd n fs).2.vx
               * (TILE_PROPERTIES (getTerrainAtWorld m
                   (simFlightLoop m T sd n fs).2.x
                   (simFlightLoop m T sd n fs).2.y)).landingSpeedFactor,
             (simFlightLoop m T sd n fs).2.vy
               * (TILE_PROPERTIES (getTerrainAtWorld m
                   (simFlightLoop m T sd n fs).2.x
                   (simFlightLoop m T sd n fs).2.y)).landingSpeedFactor⟩
            sd (simFlightLoop m T sd n fs).2.spinAngle 0 strokes lsX lsY := by
  intro n
  induction n with
  | zero =>
    intro fs strokes lsX lsY hnl hz hok
    simp only [simFlightOk, hnl] at hok
    exact absurd hok (Bool.false_ne_true)
  | succ n ih =>
    intro fs strokes lsX lsY hnl hz hok
    simp only [simFlightOk] at hok
    rw [if_neg (by simp [hnl])] at hok
    simp only [simFlightLoop]
    rw [if_neg (by simp [hnl])]
    by_cases hc : fs.z + (fs.vz - GRAVITY * TRAJECTORY_DT) * TRAJECTORY_DT ≤ 0 ∧
        fs.vz - GRAVITY * TRAJECTORY_DT < 0
    · rw [if_pos hc] at hok
      by_cases hb : |fs.vz - GRAVITY * TRAJECTORY_DT| > MIN_BOUNCE_VZ ∧
          (TILE_PROPERTIES (getTerrainAtWorld m
            (fs.x + fs.vx * TRAJECTORY_DT)
            (fs.y + fs.vy * TRAJECTORY_DT))).bounceFactor > 0
      · rw [if_pos hb] at hok
        by_cases hb3 : fs.bounces < 3
        · -- a bounce, identical on both sides
          rw [if_pos hb3] at hok
          have hbc : |fs.vz - GRAVITY * TRAJECTORY_DT| > MIN_BOUNCE_VZ ∧
              (TILE_PROPERTIES (getTerrainAtWorld m
                (fs.x + fs.vx * TRAJECTORY_DT)
                (fs.y + fs.vy * TRAJECTORY_DT))).bounceFactor > 0 ∧
              fs.bounces < 3 := ⟨hb.1, hb.2, hb3⟩
          have hstep : (simFlightStep m T sd fs).2.landed = false ∧
              (simFlightStep m T sd fs).2.z = 0 ∧
              TrajectoryPoint.toTriple (simFlightStep m T sd fs).1
                = ((simFlightStep m T sd fs).2.x, (simFlightStep m T sd fs).2.y,
                   (simFlightStep m T sd fs).2.z) := by
            simp only [simFlightStep]
            rw [if_pos hc, if_pos hbc]
            split_ifs <;>
              exact ⟨rfl, rfl, by simp [TrajectoryPoint.toTriple]⟩
          have hupd : update m T delta (fs.toBall sd strokes lsX lsY)
              = (simFlightStep m T sd fs).2.toBall sd strokes lsX lsY := by
            rw [update_airborne_eq m T delta _ rfl, hdt]
            simp only [updateAirborne, simFlightStep, FState.toBall]
            rw [if_pos hc, if_pos hb, if_pos hbc]
            split_ifs <;> rfl
          obtain ⟨hl, htr, hrf⟩ := ih (simFlightStep m T sd fs).2 strokes lsX lsY
            hstep.1 hstep.2.1.ge hok
          refine ⟨hl, ?_, ?_⟩
          · simp only [List.map_cons, List.length_cons, liveTrace, hupd]
            rw [hstep.2.2, htr]
            rfl
          · simp only [List.length_cons, runFrames, hupd]
            exact hrf
        · -- the live ball would bounce a 4th time: excluded by the checker
          rw [if_neg hb3] at hok
          exact absurd hok (by simp)
      · -- the landing transition
        rw [if_neg hb] at hok
        rw [Bool.and_eq_true] at hok
        obtain ⟨hh, -⟩ := hok
        rw [Bool.not_eq_true'] at hh
        have hnb3 : ¬ (|fs.vz - GRAVITY * TRAJECTORY_DT| > MIN_BOUNCE_VZ ∧
            (TILE_PROPERTIES (getTerrainAtWorld m
              (fs.x + fs.vx * TRAJECTORY_DT)
              (fs.y + fs.vy * TRAJECTORY_DT))).bounceFactor > 0 ∧
            fs.bounces < 3) := fun h => hb ⟨h.1, h.2.1⟩
        have hstep : (simFlightStep m T sd fs).2
            = ⟨fs.x + fs.vx * TRAJECTORY_DT, fs.y + fs.vy * TRAJECTORY_DT, 0,
               fs.vx, fs.vy, fs.vz - GRAVITY * TRAJECTORY_DT, fs.spinAngle,
               fs.bounces, true⟩ ∧
            (simFlightStep m T sd fs).1
            = ⟨fs.x + fs.vx * TRAJECTORY_DT, fs.y + fs.vy * TRAJECTORY_DT,
               max 0 0⟩ := by
          simp only [simFlightStep]
          rw [if_pos hc, if_neg hnb3]
          exact ⟨rfl, rfl⟩
        have hloop : simFlightLoop m T sd n (simFlightStep m T sd fs).2
            = ([], (simFlightStep m T sd fs).2) :=
          simFlightLoop_landed m T sd n _ (by rw [hstep.1])
        have hupd : update m T delta (fs.toBall sd strokes lsX lsY)
            = RState.toBall
                ⟨fs.x + fs.vx * TRAJECTORY_DT, fs.y + fs.vy * TRAJECTORY_DT,
                 fs.vx * (TILE_PROPERTIES (getTerrainAtWorld m
                     (fs.x + fs.vx * TRAJECTORY_DT)
                     (fs.y + fs.vy * TRAJECTORY_DT))).landingSpeedFactor,
                 fs.vy * (TILE_PROPERTIES (getTerrainAtWorld m
                     (fs.x + fs.vx * TRAJECTORY_DT)
                     (fs.y + fs.vy * TRAJECTORY_DT))).landingSpeedFactor⟩
                sd fs.spinAngle 0 strokes lsX lsY := by
          rw [update_airborne_eq m T delta _ rfl, hdt]
          simp only [updateAirborne, FState.toBall, RState.toBall]
          rw [if_pos hc, if_neg hb, if_neg (by simp [hh])]
        rw [hloop]
        refine ⟨by simp [hstep.1], ?_, ?_⟩
        · simp only [List.map_cons, List.map_nil, List.length_cons,
            List.length_nil, liveTrace, hupd]
          rw [hstep.2]
          simp [TrajectoryPoint.toTriple, RState.toBall]
        · simp only [List.length_cons, List.length_nil, runFrames, hupd]
          rw [hstep.1]
    · -- no ground contact this frame
      rw [if_neg hc] at hok
      have hz' : 0 ≤ fs.z + (fs.vz - GRAVITY * TRAJECTORY_DT) * TRAJECTORY_DT := by
        by_contra hneg
        push_neg at hneg
        have hvz : 0 ≤ fs.vz - GRAVITY * TRAJECTORY_DT := by
          by_contra hv
          push_neg at hv
          exact hc ⟨le_of_lt hneg, hv⟩
        have hdt0 : (0:ℚ) ≤ TRAJECTORY_DT := by norm_num [TRAJECTORY_DT]
        nlinarith
      have hstep : (simFlightStep m T sd fs).2
          = ⟨fs.x + fs.vx * TRAJECTORY_DT, fs.y + fs.vy * TRAJECTORY_DT,
             fs.z + (fs.vz - GRAVITY * TRAJECTORY_DT) * TRAJECTORY_DT,
             fs.vx, fs.vy, fs.vz - GRAVITY * TRAJECTORY_DT, fs.spinAngle,
             fs.bounces, false⟩ ∧
          (simFlightStep m T sd fs).1
          = ⟨fs.x + fs.vx * TRAJECTORY_DT, fs.y + fs.vy * TRAJECTORY_DT,
             max 0 (fs.z + (fs.vz - GRAVITY * TRAJECTORY_DT) * TRAJECTORY_DT)⟩ := by
        simp only [simFlightStep]
        rw [if_neg hc]
        exact ⟨rfl, rfl⟩
      have hupd : update m T delta (fs.toBall sd strokes lsX lsY)
          = (simFlightStep m T sd fs).2.toBall sd strokes lsX lsY := by
        rw [update_airborne_eq m T delta _ rfl, hdt]
        simp only [updateAirborne, FState.toBall]
        rw [if_neg hc, hstep.1]
      obtain ⟨hl, htr, hrf⟩ := ih (simFlightStep m T sd fs).2 strokes lsX lsY
        (by rw [hstep.1]) (by rw [hstep.1]; exact hz') hok
      refine ⟨hl, ?_, ?_⟩
      · simp only [List.map_cons, List.length_cons, liveTrace, hupd]
        rw [htr, hstep.2, hstep.1]
        simp only [TrajectoryPoint.toTriple, FState.toBall]
        rw [max_eq_right hz']
      · simp only [List.length_cons, runFrames, hupd]
        exact hrf

/-- Rolling-loop correspondence: along a roll run that `simRollOk` accepts,
every prediction sample is the live ball's position at the corresponding
frame. -/
lemma simRollLoop_corr (m : IsoMap) (T : Trig) (delta : ℚ)
    (hdt : delta / 1000 = TRAJECTORY_DT) (sd : ℤ) (sa vzq : ℚ) :
    ∀ (n : ℕ) (rs : RState) (strokes : ℕ) (lsX lsY : ℚ),
      simRollOk m n rs = true →
      (simRollLoop m n rs).map TrajectoryPoint.toTriple
        = liveTrace m T delta (simRollLoop m n rs).length
            (rs.toBall sd sa vzq strokes lsX lsY) := by
  intro n
  induction n with
  | zero => intro rs strokes lsX lsY _; rfl
  | succ n ih =>
    intro rs strokes lsX lsY hok
    simp only [simRollOk] at hok
    simp only [simRollLoop]
    by_cases hstop : rs.vx * rs.vx + rs.vy * rs.vy < STOP_THRESHOLD ^ 2
    · rw [if_pos hstop]
      rfl
    · rw [if_neg hstop]
      rw [if_neg hstop] at hok
      rw [Bool.and_eq_true, Bool.and_eq_true] at hok
      obtain ⟨⟨h1, h2⟩, hok2⟩ := hok
      rw [Bool.not_eq_true'] at h1 h2
      simp only [simRollStep] at h2
      have hupd : update m T delta (rs.toBall sd sa vzq strokes lsX lsY)
          = (simRollStep m rs).2.toBall sd sa vzq strokes
              (simRollStep m rs).2.x (simRollStep m rs).2.y := by
        rw [update_rolling_eq m T delta _ rfl rfl, hdt]
        simp only [updateGround, RState.toBall, simRollStep]
        rw [if_neg (by simp [h1]), if_neg hstop, if_neg (by simp [h2])]
      simp only [List.map_cons, List.length_cons, liveTrace, hupd]
      refine List.cons_eq_cons.mpr ⟨?_, ih (simRollStep m rs).2 strokes _ _ hok2⟩
      simp [simRollStep, TrajectoryPoint.toTriple, RState.toBall]

/-- C2 (amended): `simulateTrajectory` applies the same per-step physical
rules as the live integrator — the same gravity, bounce condition and
dampings, spin rotation and decay, landing-speed factor, friction and stop
threshold at the same `dt` — and, whenever the run stays clear of the two
coded divergences (the live integrator's hazard handling, which the
prediction ignores, and the prediction's cap of 3 bounces and 50 flight
steps, which the live integrator does not have; `simTrajOk` checks both
along the run), the predicted `(x, y, z)` sample sequence coincides
exactly with the positions the live ball occupies on consecutive frames
after the shot. -/
theorem c2_prediction_matches_live (m : IsoMap) (T : Trig) (b : Ball)
    (angle power loftDegrees : ℚ) (sd : ℤ) (sa : ℚ) (delta : ℚ)
    (hdt : delta / 1000 = TRAJECTORY_DT)
    (hok : simTrajOk m T b.groundX b.groundY angle power loftDegrees sd sa
      = true) :
    (simulateTrajectory m T b.groundX b.groundY angle power loftDegrees sd
        sa).map TrajectoryPoint.toTriple
      = liveTrace m T delta
          (simulateTrajectory m T b.groundX b.groundY angle power loftDegrees
            sd sa).length
          (shoot T angle power loftDegrees sd sa b) := by
  simp only [simTrajOk] at hok
  simp only [simulateTrajectory]
  by_cases hskip : power * T.sin (T.degToRad loftDegrees) ≤ MIN_BOUNCE_VZ
  · rw [if_pos hskip]
    rw [if_pos hskip] at hok
    have hshoot : shoot T angle power loftDegrees sd sa b
        = RState.toBall
            ⟨b.groundX, b.groundY,
             T.cos angle * (power * T.cos (T.degToRad loftDegrees)),
             T.sin angle * (power * T.cos (T.degToRad loftDegrees))⟩
            sd sa (power * T.sin (T.degToRad loftDegrees))
            (b.strokeCount + 1) b.groundX b.groundY := by
      simp only [shoot, RState.toBall]
      rw [if_neg (not_lt.mpr hskip)]
    rw [hshoot]
    exact simRollLoop_corr m T delta hdt sd sa
      (power * T.sin (T.degToRad loftDegrees)) maxRollSteps _ _ _ _ hok
  · rw [if_neg hskip]
    rw [if_neg hskip] at hok
    rw [Bool.and_eq_true] at hok
    obtain ⟨hfok, hrok⟩ := hok
    have hshoot : shoot T angle power loftDegrees sd sa b
        = FState.toBall
            ⟨b.groundX, b.groundY, 0,
             T.cos angle * (power * T.cos (T.degToRad loftDegrees)),
             T.sin angle * (power * T.cos (T.degToRad loftDegrees)),
             power * T.sin (T.degToRad loftDegrees), sa, 0, false⟩
            sd (b.strokeCount + 1) b.groundX b.groundY := by
      simp only [shoot, FState.toBall]
      rw [if_pos (not_le.mp hskip)]
    obtain ⟨-, htr, hrf⟩ := simFlightLoop_corr m T sd delta hdt
      TRAJECTORY_STEPS
      ⟨b.groundX, b.groundY, 0,
       T.cos angle * (power * T.cos (T.degToRad loftDegrees)),
       T.sin angle * (power * T.cos (T.degToRad loftDegrees)),
       power * T.sin (T.degToRad loftDegrees), sa, 0, false⟩
      (b.strokeCount + 1) b.groundX b.groundY rfl (le_refl 0) hfok
    simp only [simFlightPhase] at hrok ⊢
    rw [hshoot, List.map_append, List.length_append, liveTrace_append,
      htr, hrf]
    congr 1
    exact simRollLoop_corr m T delta hdt sd _ 0 maxRollSteps _ _ _ _ hrok

lemma simRollOk_step (m : IsoMap) (n : ℕ) (st : RState)
    (h : STOP_THRESHOLD ^ 2 ≤ st.vx * st.vx + st.vy * st.vy) :
    simRollOk m (n + 1) st
      = (!(isHazard m st.x st.y) &&
         !(isHazard m (simRollStep m st).2.x (simRollStep m st).2.y) &&
         simRollOk m n (simRollStep m st).2) := by
  simp only [simRollOk]
  rw [if_neg (not_lt.mpr h)]

lemma simRollOk_stop (m : IsoMap) (n : ℕ) (st : RState)
    (h : st.vx * st.vx + st.vy * st.vy < STOP_THRESHOLD ^ 2) :
    simRollOk m n st = true := by
  cases n with
  | zero => rfl
  | succ n => simp only [simRollOk]; rw [if_pos h]

set_option maxHeartbeats 3000000 in
/-- C2 counterexample: a putt from `(56, 66)` on the 1×1 Grass map.  The
live ball completes one safe frame (to `x = 302/5`), rolls past the map
edge on the next frame and is hazard-reset to `302/5`; the prediction
ignores hazards and keeps rolling, so at index 1 the predicted sample
(`x = 8034/125`) differs from the position the live ball occupies at frame
2 — the predicted sequence does not coincide with the live states even
though both use `dt = TRAJECTORY_DT` (`delta = 25 ms`) and no iteration cap
is reached. -/
theorem c2_counterexample :
    ¬ ((simulateTrajectory grassMap flatTrig 56 66 0 200 0 0 0).map
          TrajectoryPoint.toTriple
        = liveTrace grassMap flatTrig 25
            (simulateTrajectory grassMap flatTrig 56 66 0 200 0 0 0).length
            (shoot flatTrig 0 200 0 0 0 (createBall 56 66))) := by
  intro h
  have h2 := congrArg (fun l => l[1]?) h
  norm_num [simulateTrajectory_skip, simRollLoop_step, simRollLoop_stop,
    simRollStep, liveTrace, runFrames, update, updateGround, shoot,
    createBall, handleWaterHazard, isHazard, getTerrainAtWorld, grassMap,
    flatTrig, IsoMap.worldToTile, IsoMap.getOffsetX, IsoMap.getOffsetY,
    IsoMap.isInBounds, IsoMap.getTileAt, TILE_WIDTH, TILE_HEIGHT,
    TILE_PROPERTIES, GRAVITY, MIN_BOUNCE_VZ, STOP_THRESHOLD, TRAJECTORY_DT,
    maxRollSteps, TrajectoryPoint.toTriple,
    (show (TileType.GRASS == TileType.WATER) = false from rfl)] at h2

set_option maxHeartbeats 3000000 in
/-- Witness for `c2_prediction_matches_live`: a short putt on the Grass
map that stops well inside the map; the run checker accepts it and the
predicted samples equal the live per-frame positions. -/
theorem c2_prediction_matches_live_witness :
    simTrajOk grassMap flatTrig 32 66 0 20 0 0 0 = true ∧
    (simulateTrajectory grassMap flatTrig 32 66 0 20 0 0 0).map
        TrajectoryPoint.toTriple
      = liveTrace grassMap flatTrig 25
          (simulateTrajectory grassMap flatTrig 32 66 0 20 0 0 0).length
          (shoot flatTrig 0 20 0 0 0 (createBall 32 66)) := by
  have hok : simTrajOk grassMap flatTrig 32 66 0 20 0 0 0 = true := by
    norm_num [simTrajOk, simRollOk_step, simRollOk_stop, simRollStep,
      isHazard, getTerrainAtWorld, grassMap, flatTrig, IsoMap.worldToTile,
      IsoMap.getOffsetX, IsoMap.getOffsetY, IsoMap.isInBounds,
      IsoMap.getTileAt, TILE_WIDTH, TILE_HEIGHT, TILE_PROPERTIES,
      MIN_BOUNCE_VZ, STOP_THRESHOLD, TRAJECTORY_DT, maxRollSteps,
      (show (TileType.GRASS == TileType.WATER) = false from rfl)]
  exact ⟨hok, c2_prediction_matches_live grassMap flatTrig (createBall 32 66)
    0 20 0 0 0 25 (by norm_num [TRAJECTORY_DT]) hok⟩

end GolfSim
